import Mathlib

/-!
Verification development for the SiliconFlow-images-to-OpenAI proxy worker
(`src/worker.js`).  The worker is a stateless request translator: two POST
handlers (`imagesGenerations`, `chatCompletions`) validate an inbound JSON
body, extract an optional input-image reference, map OpenAI-style and `sf_*`
parameters onto an upstream payload, orchestrate one batched or `n`
sequential upstream calls, and render the collected image URLs back into an
OpenAI-compatible response.

The embedding below models JavaScript values with a single inductive `JVal`
(arrays and objects are cons spines so that every definition is structural
and kernel-reducible), JS string coercion, truthiness, `parseInt`,
`String.prototype.trim`, and the three regular expressions of the worker as
explicit scanners.  Upstream HTTP calls, the random seed source and the
image fetch used for base64 rendering are injected oracles, following
the design note of the spec that the random-seed source be an injectable
capability.  Each handler also returns the ordered list of payloads it sent
upstream (`callPayloads`), which is the handler's observable outbound
traffic.
-/

/-- Model of a JavaScript/JSON value.  Arrays and objects are represented as
cons spines (`arrCons`/`objCons`) instead of nested `List`s so that all
recursive functions over `JVal` are structural.  `undefined` is JavaScript
`undefined` (absent property), `null` is JSON `null`. -/
inductive JVal where
  | undefined
  | null
  | bool (b : Bool)
  | num (n : Int)
  | str (s : String)
  | arrNil
  | arrCons (hd tl : JVal)
  | objNil
  | objCons (key : String) (val : JVal) (tl : JVal)
deriving DecidableEq

/-- Build a `JVal` array from a list (convenience constructor). -/
def JVal.jarr : List JVal → JVal
  | [] => .arrNil
  | x :: xs => .arrCons x (JVal.jarr xs)

/-- Build a `JVal` object from a key/value list (convenience constructor). -/
def JVal.jobj : List (String × JVal) → JVal
  | [] => .objNil
  | (k, v) :: xs => .objCons k v (JVal.jobj xs)

/-- Elements of a `JVal` array, as a list (empty for non-arrays). -/
def jElems : JVal → List JVal
  | .arrCons h t => h :: jElems t
  | _ => []

/-- Property lookup `v[k]`: `undefined` on missing keys and on any
non-object, mirroring both plain access and optional chaining (`v?.k`),
which agree everywhere the worker uses them. -/
def jget : JVal → String → JVal
  | .objCons k v t, key => if k == key then v else jget t key
  | _, _ => .undefined

/-- JavaScript truthiness of a value (`Boolean(v)`).  The numeric model is
`Int`, so there is no `NaN` case. -/
def jvTruthy : JVal → Bool
  | .undefined => false
  | .null => false
  | .bool b => b
  | .num n => n != 0
  | .str s => s != ""
  | .arrNil | .arrCons _ _ => true
  | .objNil | .objCons _ _ _ => true

/-- JavaScript `a || b`. -/
def jOr (a b : JVal) : JVal := if jvTruthy a then a else b

/-- JavaScript `a ?? b` (nullish coalescing). -/
def jNullish (a b : JVal) : JVal :=
  match a with
  | .undefined => b
  | .null => b
  | _ => a

/-- JavaScript `v === s` for a string literal `s`. -/
def jStrEq (v : JVal) (s : String) : Bool :=
  match v with
  | .str t => t == s
  | _ => false

/-- Whether `Array.isArray(v)` holds. -/
def isJsArray : JVal → Bool
  | .arrNil | .arrCons _ _ => true
  | _ => false

/-- Whether `typeof v === "object"` holds (arrays, objects and `null`). -/
def isObjLike : JVal → Bool
  | .arrNil | .arrCons _ _ | .objNil | .objCons _ _ _ | .null => true
  | _ => false

/-- Decimal digits of `n`, most significant first; the fuel argument is
always sufficient because `n` strictly shrinks under division by 10. -/
def natToCharsAux : Nat → Nat → List Char
  | 0, _ => []
  | fuel+1, n =>
    if n < 10 then [Char.ofNat (48 + n)]
    else natToCharsAux fuel (n / 10) ++ [Char.ofNat (48 + n % 10)]

/-- Decimal representation of a natural number. -/
def natToStr (n : Nat) : String := String.mk (natToCharsAux (n+1) n)

/-- Decimal representation of an integer (JavaScript `String(number)` for
integral numbers). -/
def intToStr : Int → String
  | .ofNat n => natToStr n
  | .negSucc m => "-" ++ natToStr (m+1)

/-- Array elements stringify through `String()` except `null`/`undefined`,
which `Array.prototype.join` renders as the empty string. -/
def jsElemFix : JVal → String → String
  | .null, _ => ""
  | .undefined, _ => ""
  | _, s => s

/-- JavaScript `String(v)`.  Arrays stringify as their elements joined with
commas (`Array.prototype.toString`), recursively; note that the string of a
non-empty array equals the string of its head element followed by `","` and
the string of its tail array. -/
def jsToString : JVal → String
  | .undefined => "undefined"
  | .null => "null"
  | .bool b => cond b "true" "false"
  | .num n => intToStr n
  | .str s => s
  | .objNil | .objCons _ _ _ => "[object Object]"
  | .arrNil => ""
  | .arrCons h t =>
    jsElemFix h (jsToString h) ++
      (match t with
       | .arrCons _ _ => "," ++ jsToString t
       | _ => "")

/-- JavaScript whitespace (`\s` in regular expressions and the characters
stripped by `String.prototype.trim`): ASCII whitespace, NBSP, the Unicode
space separators, line/paragraph separators and the BOM. -/
def isJsSpace (c : Char) : Bool :=
  let n := c.toNat
  (9 ≤ n && n ≤ 13) || n == 32 || n == 160 || n == 5760 ||
  (8192 ≤ n && n ≤ 8202) || n == 8232 || n == 8233 || n == 8239 ||
  n == 8287 || n == 12288 || n == 65279

/-- List-level `String.prototype.trim`. -/
def jsTrimL (l : List Char) : List Char :=
  ((((l.dropWhile isJsSpace).reverse).dropWhile isJsSpace)).reverse

/-- JavaScript `String.prototype.trim`. -/
def jsTrim (s : String) : String := String.mk (jsTrimL s.data)

/-- ASCII decimal digit. -/
def isDigitC (c : Char) : Bool := 48 ≤ c.toNat && c.toNat ≤ 57

/-- Numeric value of a decimal digit string (fold over its characters). -/
def digitsVal (l : List Char) : Nat := l.foldl (fun a c => 10 * a + (c.toNat - 48)) 0

/-- Longest digit prefix of `l`, or `none` when it is empty. -/
def digitsPrefix (l : List Char) : Option Nat :=
  let ds := l.takeWhile isDigitC
  if ds.isEmpty then none else some (digitsVal ds)

/-- JavaScript `parseInt(s, 10)`: skip leading whitespace, an optional
sign, then the longest digit prefix; `none` models `NaN`. -/
def parseIntJs (s : String) : Option Int :=
  match s.data.dropWhile isJsSpace with
  | '-' :: t => (digitsPrefix t).map (fun n => -(n : Int))
  | '+' :: t => (digitsPrefix t).map (fun n => (n : Int))
  | t => (digitsPrefix t).map (fun n => (n : Int))

/-- `clampInt(v, lo, hi)` from the worker:
`parseInt(String(v), 10)`, `lo` on `NaN`, then clamped into `[lo, hi]`. -/
def clampInt (v : JVal) (lo hi : Int) : Int :=
  match parseIntJs (jsToString v) with
  | none => lo
  | some n => max lo (min hi n)

/-- ASCII lower-casing of a character, the canonicalisation used by the
worker's case-insensitive (non-`u`) regular expressions. -/
def lowerA (c : Char) : Char :=
  if 65 ≤ c.toNat && c.toNat ≤ 90 then Char.ofNat (c.toNat + 32) else c

/-- Case-insensitive prefix test on character lists. -/
def prefixCI : List Char → List Char → Bool
  | [], _ => true
  | _ :: _, [] => false
  | p :: ps, c :: cs => (lowerA p == lowerA c) && prefixCI ps cs

/-- Case-insensitive substring test (`/pat/i.test(s)` for a literal
pattern). -/
def containsCI (p : List Char) : List Char → Bool
  | [] => prefixCI p []
  | c :: t => prefixCI p (c :: t) || containsCI p t

/-- `isImageEditModel` from the worker:
`/Qwen\/Qwen-Image-Edit/i.test(model)`. -/
def isImageEditModel (model : String) : Bool :=
  containsCI "Qwen/Qwen-Image-Edit".data model.data

/-- Character class `[a-zA-Z0-9.+-]` (data-URI subtype). -/
def isSubtypeChar (c : Char) : Bool :=
  let n := c.toNat
  (65 ≤ n && n ≤ 90) || (97 ≤ n && n ≤ 122) || (48 ≤ n && n ≤ 57) ||
  n == 46 || n == 43 || n == 45

/-- Character class `[A-Za-z0-9+/=]` (base64 payload). -/
def isB64Char (c : Char) : Bool :=
  let n := c.toNat
  (65 ≤ n && n ≤ 90) || (97 ≤ n && n ≤ 122) || (48 ≤ n && n ≤ 57) ||
  n == 43 || n == 47 || n == 61

/-- Character class `[^\s)]` (URL token characters). -/
def isUrlChar (c : Char) : Bool := !isJsSpace c && c != ')'

/-- Literal prefix test on character lists (case-sensitive). -/
def startsWithL : List Char → List Char → Bool
  | [], _ => true
  | _ :: _, [] => false
  | p :: ps, c :: cs => (p == c) && startsWithL ps cs

/-- Greedy run of a character class: the longest prefix of `l` whose
characters satisfy `p`, and the remainder.  This is how a greedy `[...]+`
or `[...]*` consumes input when the class excludes the character that the
pattern requires next, so that no backtracking can occur — which is the
case for every quantifier in the worker's three patterns. -/
def splitRun (p : Char → Bool) : List Char → List Char × List Char
  | [] => ([], [])
  | c :: t =>
    if p c then
      let r := splitRun p t
      (c :: r.1, r.2)
    else ([], c :: t)

/-- Match of `data:image\/[a-zA-Z0-9.+-]+;base64,[A-Za-z0-9+/=]+` anchored
at the head of `l`. -/
def matchDataUriAt (l : List Char) : Option (List Char) :=
  if startsWithL "data:image/".data l then
    match splitRun isSubtypeChar (l.drop 11) with
    | ([], _) => none
    | (sub, rest2) =>
      if startsWithL ";base64,".data rest2 then
        match splitRun isB64Char (rest2.drop 8) with
        | ([], _) => none
        | (pay, _) => some ("data:image/".data ++ sub ++ ";base64,".data ++ pay)
      else none
  else none

/-- Match of `https?:\/\/` anchored at the head of `l`, returning the
protocol consumed (`https?` never backtracks here: an input starting
`https://` cannot also start `http://`). -/
def protoAt : List Char → Option (List Char)
  | 'h' :: 't' :: 't' :: 'p' :: 's' :: ':' :: '/' :: '/' :: _ => some "https://".data
  | 'h' :: 't' :: 't' :: 'p' :: ':' :: '/' :: '/' :: _ => some "http://".data
  | _ => none

/-- Consume `[^\]]*\](` of the Markdown pattern: the alternative text (the
class cannot contain `]`, so the first `]` ends it) must be followed by
`(`; returns the remainder. -/
def mdAlt : List Char → Option (List Char)
  | [] => none
  | ']' :: '(' :: r => some r
  | ']' :: _ => none
  | _ :: t => mdAlt t

/-- Match of `!\[[^\]]*\]\((https?:\/\/[^\s)]+)\)` anchored at the head of
`l`, returning capture group 1. -/
def matchMdAt (l : List Char) : Option (List Char) :=
  match l with
  | '!' :: '[' :: rest =>
    match mdAlt rest with
    | none => none
    | some rest3 =>
      match protoAt rest3 with
      | none => none
      | some proto =>
        match splitRun isUrlChar (rest3.drop proto.length) with
        | ([], _) => none
        | (run, rest5) =>
          match rest5 with
          | ')' :: _ => some (proto ++ run)
          | _ => none
  | _ => none

/-- Match of the bare pattern `https?:\/\/[^\s)]+` anchored at the head of
`l`. -/
def matchBareAt (l : List Char) : Option (List Char) :=
  match protoAt l with
  | none => none
  | some proto =>
    match splitRun isUrlChar (l.drop proto.length) with
    | ([], _) => none
    | (run, _) => some (proto ++ run)

/-- Leftmost match: try the anchored matcher at each start position from
the left, as a JavaScript regular expression search does. -/
def scanFor (f : List Char → Option (List Char)) : List Char → Option (List Char)
  | [] => f []
  | c :: t =>
    match f (c :: t) with
    | some r => some r
    | none => scanFor f t

/-- `extractImageFromPlainText` from the worker: first the data-URI
pattern, then the Markdown image pattern (capture group), then the bare URL
pattern; first (leftmost) match of the first matching pattern wins. -/
def extractImageFromPlainText (s : String) : Option String :=
  if s == "" then none
  else
    match scanFor matchDataUriAt s.data with
    | some r => some (String.mk r)
    | none =>
      match scanFor matchMdAt s.data with
      | some r => some (String.mk r)
      | none =>
        match scanFor matchBareAt s.data with
        | some r => some (String.mk r)
        | none => none

/-- `normalizeImageString` from the worker: `String(s).trim()`, accepted
only when it matches `/^data:image\//i` or `/^https?:\/\//i`. -/
def normalizeImageString (v : JVal) : Option String :=
  let t := jsTrim (jsToString v)
  if prefixCI "data:image/".data t.data then some t
  else if prefixCI "https://".data t.data || prefixCI "http://".data t.data then some t
  else none

/-- `coerceImageStringOrObj` from the worker: accepts a truthy string or an
object with a truthy `url` property, both normalised through
`normalizeImageString`. -/
def coerceImageStringOrObj (v : JVal) : Option String :=
  if jvTruthy v = false then none
  else
    match v with
    | .str s => normalizeImageString (.str s)
    | .arrNil | .arrCons _ _ | .objNil | .objCons _ _ _ =>
      if jvTruthy (jget v "url") then normalizeImageString (jget v "url") else none
    | _ => none

/-- First item of a list accepted by `coerceImageStringOrObj`. -/
def firstCoerce : List JVal → Option String
  | [] => none
  | x :: xs =>
    match coerceImageStringOrObj x with
    | some s => some s
    | none => firstCoerce xs

/-- `pickImageFromBody` from the worker: `body.image ?? body.image_url`
through the coercion, then the first coercible item of
`body.images ?? body.image_urls` when that is an array. -/
def pickImageFromBody (body : JVal) : Option String :=
  if jvTruthy body = false then none
  else
    match coerceImageStringOrObj (jNullish (jget body "image") (jget body "image_url")) with
    | some s => some s
    | none =>
      let a := jNullish (jget body "images") (jget body "image_urls")
      if isJsArray a then firstCoerce (jElems a) else none

/-- The plain-string check of a content entry:
`typeof it === "string" ? extractImageFromPlainText(it) : null`. -/
def plainItemImage : JVal → Option String
  | .str s => extractImageFromPlainText s
  | _ => none

/-- One entry of a structured `content` array, scanned by the four
sequential checks of `pickImageFromMessage` (an entry failing an earlier
check falls through to the later ones). -/
def tryContentItem (it : JVal) : Option String :=
  match (if jvTruthy it && jStrEq (jget it "type") "image_url" then
           coerceImageStringOrObj (jOr (jget (jget it "image_url") "url") (jget it "image_url"))
         else none) with
  | some s => some s
  | none =>
    match (if jvTruthy it && jStrEq (jget it "type") "input_image" then
             coerceImageStringOrObj
               (jOr (jget (jget it "image_url") "url") (jOr (jget it "url") (jget it "image")))
           else none) with
    | some s => some s
    | none =>
      match plainItemImage it with
      | some s => some s
      | none =>
        if jvTruthy it && isObjLike it then
          coerceImageStringOrObj
            (jOr (jget it "url")
              (jOr (jget it "image") (jOr (jget it "src") (jOr (jget it "data") (jget it "href")))))
        else none

/-- First entry of a `content` array yielding an image reference. -/
def firstContentImage : List JVal → Option String
  | [] => none
  | x :: xs =>
    match tryContentItem x with
    | some s => some s
    | none => firstContentImage xs

/-- `pickImageFromMessage` from the worker: scan a structured `content`
array entry by entry, else extract from a plain-string `content`. -/
def pickImageFromMessage (msg : JVal) : Option String :=
  if jvTruthy msg = false then none
  else
    match (if isJsArray (jget msg "content") then firstContentImage (jElems (jget msg "content"))
           else none) with
    | some s => some s
    | none =>
      match jget msg "content" with
      | .str s => extractImageFromPlainText s
      | _ => none

/-- Reverse scan of `pickImageFromLastAssistant`, over an already reversed
message list. -/
def pickFromAssistantRev : List JVal → Option String
  | [] => none
  | m :: rest =>
    if jStrEq (jget m "role") "assistant" then
      match pickImageFromMessage m with
      | some s => some s
      | none => pickFromAssistantRev rest
    else pickFromAssistantRev rest

/-- `pickImageFromLastAssistant` from the worker: walk the messages from
the end and return the first image extracted from an assistant message. -/
def pickImageFromLastAssistant (ms : List JVal) : Option String :=
  pickFromAssistantRev ms.reverse

/-- The most recent message with role `user`
(`[...messages].reverse().find(...)`); `undefined` models `undefined` when no
user message exists. -/
def findLastUser (ms : List JVal) : JVal :=
  match ms.reverse.find? (fun m => jStrEq (jget m "role") "user") with
  | some m => m
  | none => .undefined

/-- An element of a structured content array, as joined by
`flattenContentToText`: the string itself, else `c?.text || ""`. -/
def flattenElem (c : JVal) : JVal :=
  match c with
  | .str s => .str s
  | _ => if jvTruthy (jget c "text") then jget c "text" else .str ""

/-- `flattenContentToText` from the worker. -/
def flattenContentToText (c : JVal) : String :=
  if jvTruthy c = false then ""
  else
    match c with
    | .str s => s
    | .arrNil | .arrCons _ _ =>
      String.intercalate "\n" ((jElems c).map (fun x => jsToString (flattenElem x)))
    | .objNil | .objCons _ _ _ =>
      if jvTruthy (jget c "text") then jsToString (jget c "text") else ""
    | _ => ""

/-- The chat prompt: the last user message's `content` when it is a
string, else `flattenContentToText` of it. -/
def chatPrompt (lastUser : JVal) : String :=
  match jget lastUser "content" with
  | .str s => s
  | c => flattenContentToText c

/-- The input-image search of the chat handler (worker lines 180-187):
the most recent user message, then the top-level body fields, then — for
edit models only — the most recent assistant message with an extractable
image. -/
def chatPickImage (ms : List JVal) (body : JVal) (model : String) : Option String :=
  match pickImageFromMessage (findLastUser ms) with
  | some s => some s
  | none =>
    match pickImageFromBody body with
    | some s => some s
    | none => if isImageEditModel model then pickImageFromLastAssistant ms else none

/-- The upstream payload built by both handlers: `model` and `prompt` plus
the optional mapped fields.  A field is `none` exactly when the
corresponding property is absent from the JavaScript payload object. -/
structure SFPayload where
  model : String
  prompt : String
  image_size : Option String
  image : Option String
  negative_prompt : Option JVal
  num_inference_steps : Option JVal
  guidance_scale : Option JVal
  cfg : Option JVal
  seed : Option JVal
  batch_size : Option JVal
deriving DecidableEq

/-- The loop body of `copyIfPresent` for one `[from, to]` pair: copy
`src[key]` onto the payload through `set` whenever it is not
`undefined`. -/
def copyStep (src : JVal) (key : String) (set : SFPayload → JVal → SFPayload)
    (p : SFPayload) : SFPayload :=
  match jget src key with
  | .undefined => p
  | v => set p v

/-- Destination-field assignment `dst.negative_prompt = v`. -/
def setNeg (p : SFPayload) (v : JVal) : SFPayload := { p with negative_prompt := some v }

/-- Destination-field assignment `dst.num_inference_steps = v`. -/
def setSteps (p : SFPayload) (v : JVal) : SFPayload := { p with num_inference_steps := some v }

/-- Destination-field assignment `dst.guidance_scale = v`. -/
def setGuid (p : SFPayload) (v : JVal) : SFPayload := { p with guidance_scale := some v }

/-- Destination-field assignment `dst.cfg = v`. -/
def setCfg (p : SFPayload) (v : JVal) : SFPayload := { p with cfg := some v }

/-- Destination-field assignment `dst.seed = v`. -/
def setSeed (p : SFPayload) (v : JVal) : SFPayload := { p with seed := some v }

/-- Destination-field assignment `dst.batch_size = v`. -/
def setBatch (p : SFPayload) (v : JVal) : SFPayload := { p with batch_size := some v }

/-- `copyIfPresent` from the worker, its loop unrolled over the literal
pair list of both handlers (innermost application first).  The
`sf_`-prefixed alias of each field is listed before the canonical name,
so a canonical value present in the body overwrites the alias value. -/
def copyIfPresent (src : JVal) (p0 : SFPayload) : SFPayload :=
  if jvTruthy src = false then p0
  else
    copyStep src "sf_batch_size" setBatch
      (copyStep src "seed" setSeed
        (copyStep src "sf_seed" setSeed
          (copyStep src "cfg" setCfg
            (copyStep src "sf_cfg" setCfg
              (copyStep src "guidance_scale" setGuid
                (copyStep src "sf_guidance_scale" setGuid
                  (copyStep src "num_inference_steps" setSteps
                    (copyStep src "sf_num_steps" setSteps
                      (copyStep src "negative_prompt" setNeg
                        (copyStep src "sf_negative_prompt" setNeg
                          p0))))))))))

/-- The common upstream payload template both handlers build around
`model`/`prompt`: `image_size` from `sf_image_size || size` when that is a
string, the already-resolved input image, then `copyIfPresent`. -/
def mkCommonPayload (body : JVal) (model prompt : String) (img : Option String) : SFPayload :=
  let base : SFPayload :=
    { model := model, prompt := prompt, image_size := none, image := img
      negative_prompt := none, num_inference_steps := none, guidance_scale := none
      cfg := none, seed := none, batch_size := none }
  let withSize :=
    match jOr (jget body "sf_image_size") (jget body "size") with
    | .str s => { base with image_size := some s }
    | _ => base
  copyIfPresent body withSize

/-- The effective image count: `clampInt(body?.n ?? 1, 1, 10)`. -/
def nEff (body : JVal) : Int := clampInt (jNullish (jget body "n") (.num 1)) 1 10

/-- Upstream response as the handlers consume it: the entries of its
`images` array, each reduced to its optional `url` string (a response with
a missing or non-array `images` field behaves as the empty list in both
handlers). -/
structure SFResp where
  images : List (Option String)
deriving DecidableEq

/-- `r?.images?.[0]?.url`, reduced by truthiness: the first entry's URL
when it exists and is a non-empty string. -/
def firstUrlOf (r : SFResp) : Option String :=
  match r.images with
  | some s :: _ => if s == "" then none else some s
  | _ => none

/-- `(r?.images || []).map(it => it?.url).filter(Boolean)`: the truthy
URLs of a batch response, in upstream order. -/
def truthyUrls (imgs : List (Option String)) : List String :=
  imgs.filterMap (fun o =>
    match o with
    | some s => if s == "" then none else some s
    | none => none)

/-- The injected random-seed source: the i-th draw of
`randSeed() = Math.floor(Math.random() * 1e10)`, a natural number below
`10^10` by construction. -/
abbrev RandSrc := Nat → Fin 10000000000

/-- The injected upstream RPC: the response (or thrown error message) of
the i-th `callSiliconFlow` call of the request. -/
abbrev UpstreamOracle := Nat → Except String SFResp

/-- The injected image fetch used by `fetchAndB64`: base64 text of the
bytes at a URL, or a thrown error message. -/
abbrev FetchOracle := String → Except String String

/-- Per-call seed injection of the sequential strategy: copy the template
and set `seed` to the given draw unless the template already has one
(`if (!("seed" in payload)) payload.seed = randSeed()`). -/
def seedPayload (common : SFPayload) (s : Nat) : SFPayload :=
  match common.seed with
  | some _ => common
  | none => { common with seed := some (.num (Int.ofNat s)) }

/-- A failure of a handler: an error response returned directly with a
status and error type, or a thrown JavaScript error that the router turns
into a 500 `internal_error` response. -/
inductive HFail where
  | httpErr (status : Nat) (etype msg : String)
  | thrown (msg : String)
deriving DecidableEq

/-- One entry of the images-generations `data` array. -/
inductive OutItem where
  | url (u : String)
  | b64 (b : String)
deriving DecidableEq

/-- Successful result of the images-generations handler: the `data` items
of the 200 response, and the payloads of the upstream calls issued, in call
order. -/
structure ImagesOk where
  dataItems : List OutItem
  callPayloads : List SFPayload
deriving DecidableEq

/-- Successful result of the chat-completions handler: the Markdown
`message.content` of the single choice, the image URLs collected in
generation order, and the payloads of the upstream calls issued, in call
order. -/
structure ChatOk where
  content : String
  urls : List String
  callPayloads : List SFPayload
deriving DecidableEq

/-- Render a URL list into images-generations `data` items: pass-through
for `url` format, else fetch-and-base64 each URL, failing the whole
response on fetch failure. -/
def outItems (fetch : FetchOracle) (isB64 : Bool) : List String → Except HFail (List OutItem)
  | [] => .ok []
  | u :: us =>
    if isB64 then
      match fetch u with
      | .error e => .error (.thrown e)
      | .ok b =>
        match outItems fetch isB64 us with
        | .error e => .error e
        | .ok rest => .ok (.b64 b :: rest)
    else
      match outItems fetch isB64 us with
      | .error e => .error e
      | .ok rest => .ok (.url u :: rest)

/-- The sequential loop of the images-generations handler (`k` calls
remaining, next call index `i`): seed the template, call upstream, require
a truthy first image URL (throwing `"Upstream did not return image url"`
otherwise), render the item, and continue. -/
def imgSeqLoop (common : SFPayload) (seeds : RandSrc) (upstream : UpstreamOracle)
    (fetch : FetchOracle) (isB64 : Bool) : Nat → Nat → Except HFail (List SFPayload × List OutItem)
  | _, 0 => .ok ([], [])
  | i, k+1 =>
    let payload := seedPayload common (seeds i).val
    match upstream i with
    | .error e => .error (.thrown e)
    | .ok r =>
      match firstUrlOf r with
      | none => .error (.thrown "Upstream did not return image url")
      | some u =>
        match (if isB64 then
                 match fetch u with
                 | .error e => Except.error (HFail.thrown e)
                 | .ok b => Except.ok (OutItem.b64 b)
               else Except.ok (OutItem.url u)) with
        | .error e => .error e
        | .ok item =>
          match imgSeqLoop common seeds upstream fetch isB64 (i+1) k with
          | .error e => .error e
          | .ok (ps, items) => .ok (payload :: ps, item :: items)

/-- The sequential loop of the chat handler: same call structure, but a
call whose response has no truthy first URL is skipped silently
(`if (url) urls.push(url)`) instead of failing. -/
def chatSeqLoop (common : SFPayload) (seeds : RandSrc) (upstream : UpstreamOracle) :
    Nat → Nat → Except HFail (List SFPayload × List String)
  | _, 0 => .ok ([], [])
  | i, k+1 =>
    let payload := seedPayload common (seeds i).val
    match upstream i with
    | .error e => .error (.thrown e)
    | .ok r =>
      match chatSeqLoop common seeds upstream (i+1) k with
      | .error e => .error e
      | .ok (ps, us) =>
        match firstUrlOf r with
        | some u => .ok (payload :: ps, u :: us)
        | none => .ok (payload :: ps, us)

/-- Strategy selector of both handlers:
`commonSfPayload.batch_size && n === 1`. -/
def batchSelected (common : SFPayload) (n : Int) : Bool :=
  (match common.batch_size with
   | some v => jvTruthy v
   | none => false) && n == 1

/-- The `/v1/images/generations` handler.  `key` is the configured
`SILICONFLOW_API_KEY` (its absence throws before any validation), and the
oracles inject upstream responses, seed draws and image fetches.  The
result is the 200 response's `data` (with the issued payload trace) or the
failure. -/
def imagesGenerations (body : JVal) (key : Option String) (seeds : RandSrc)
    (upstream : UpstreamOracle) (fetch : FetchOracle) : Except HFail ImagesOk :=
  let rfmt := jOr (jget body "response_format") (.str "url")
  let isB64 := jStrEq rfmt "b64_json"
  match key with
  | none => .error (.thrown "SILICONFLOW_API_KEY not configured")
  | some _ =>
    if jvTruthy (jget body "model") = false then
      .error (.httpErr 400 "invalid_request_error" "model is required")
    else
      let model := jsToString (jget body "model")
      match jget body "prompt" with
      | .str p =>
        if p == "" then
          .error (.httpErr 400 "invalid_request_error" "prompt is required (string)")
        else
          let img := pickImageFromBody body
          if isImageEditModel model && img.isNone then
            .error (.httpErr 400 "invalid_request_error"
              "image is required for image-edit models (accepts data:image/... or URL, or image_url)")
          else
            let common := mkCommonPayload body model p img
            let n := nEff body
            if batchSelected common n then
              match upstream 0 with
              | .error e => .error (.thrown e)
              | .ok r =>
                match outItems fetch isB64 (truthyUrls r.images) with
                | .error e => .error e
                | .ok items => .ok ⟨items, [common]⟩
            else
              match imgSeqLoop common seeds upstream fetch isB64 0 n.toNat with
              | .error e => .error e
              | .ok (ps, items) => .ok ⟨items, ps⟩
      | _ => .error (.httpErr 400 "invalid_request_error" "prompt is required (string)")

/-- Markdown body of the chat response: one `![image](...)` block per URL
joined by blank lines; in `b64_json` format each URL is fetched and
inlined as a PNG data URI first. -/
def chatMd (fetch : FetchOracle) (isB64 : Bool) (urls : List String) : Except HFail String :=
  if isB64 then
    match (urls.foldr (fun u acc =>
             match fetch u with
             | .error e => Except.error (HFail.thrown e)
             | .ok b =>
               match acc with
               | .error e => Except.error e
               | .ok bs => Except.ok (b :: bs)) (Except.ok [])) with
    | .error e => .error e
    | .ok bs =>
      .ok (String.intercalate "\n\n"
        (bs.map (fun b => "![image](data:image/png;base64," ++ b ++ ")")))
  else
    .ok (String.intercalate "\n\n" (urls.map (fun u => "![image](" ++ u ++ ")")))

/-- The `/v1/chat/completions` handler, with the same oracles as
`imagesGenerations`.  The result is the Markdown content of the single
choice (with the collected URLs and issued payload trace) or the
failure. -/
def chatCompletions (body : JVal) (key : Option String) (seeds : RandSrc)
    (upstream : UpstreamOracle) (fetch : FetchOracle) : Except HFail ChatOk :=
  let messages := if isJsArray (jget body "messages") then jElems (jget body "messages") else []
  if messages.isEmpty then
    .error (.httpErr 400 "invalid_request_error" "messages is required (array)")
  else
    let prompt := chatPrompt (findLastUser messages)
    if prompt == "" then
      .error (.httpErr 400 "invalid_request_error" "No user prompt found in messages")
    else
      if jvTruthy (jget body "model") = false then
        .error (.httpErr 400 "invalid_request_error" "model is required")
      else
        let model := jsToString (jget body "model")
        match key with
        | none => .error (.thrown "SILICONFLOW_API_KEY not configured")
        | some _ =>
          let rfmt := jOr (jget body "response_format") (.str "url")
          let isB64 := jStrEq rfmt "b64_json"
          let img := chatPickImage messages body model
          if isImageEditModel model && img.isNone then
            .error (.httpErr 400 "invalid_request_error"
              "image is required for image-edit models in chat (we also try last assistant image if user has none).")
          else
            let common := mkCommonPayload body model prompt img
            let n := nEff body
            match (if batchSelected common n then
                     match upstream 0 with
                     | .error e => Except.error (HFail.thrown e)
                     | .ok r => Except.ok ([common], truthyUrls r.images)
                   else chatSeqLoop common seeds upstream 0 n.toNat) with
            | .error e => .error e
            | .ok (ps, urls) =>
              match chatMd fetch isB64 urls with
              | .error e => .error e
              | .ok md => .ok ⟨md, urls, ps⟩

/-- `safeJson` from the worker: an empty body text decodes to `{}`; a
non-empty text is handed to `JSON.parse` (the injected `parse`), and a
parse failure throws `"Invalid JSON body"`. -/
def safeJson (t : String) (parse : String → Option JVal) : Except String JVal :=
  if t == "" then .ok .objNil
  else
    match parse t with
    | some v => .ok v
    | none => .error "Invalid JSON body"

/-- The two POST endpoints routed by `handleRequest`. -/
inductive Endpoint where
  | images
  | chat
deriving DecidableEq

/-- Outcome of a routed POST at the public interface: an error response
with status, error type and message, or the handler's 200 payload. -/
inductive PostResult where
  | resp (status : Nat) (etype msg : String)
  | okImages (r : ImagesOk)
  | okChat (r : ChatOk)
deriving DecidableEq

/-- The POST path of `handleRequest`: decode the body with `safeJson`, run
the endpoint's handler, and turn any thrown error (including the JSON
decode failure) into a 500 `internal_error` response, while error
responses returned by the handler pass through unchanged. -/
def handlePost (ep : Endpoint) (t : String) (parse : String → Option JVal)
    (key : Option String) (seeds : RandSrc) (upstream : UpstreamOracle)
    (fetch : FetchOracle) : PostResult :=
  match safeJson t parse with
  | .error msg => .resp 500 "internal_error" msg
  | .ok body =>
    match ep with
    | .images =>
      match imagesGenerations body key seeds upstream fetch with
      | .ok r => .okImages r
      | .error (.httpErr st ty m) => .resp st ty m
      | .error (.thrown m) => .resp 500 "internal_error" m
    | .chat =>
      match chatCompletions body key seeds upstream fetch with
      | .ok r => .okChat r
      | .error (.httpErr st ty m) => .resp st ty m
      | .error (.thrown m) => .resp 500 "internal_error" m

/-- First hit of `f` over a list, used to characterise the first-match-wins
scans of the extractor. -/
def firstSome (f : α → Option β) : List α → Option β
  | [] => none
  | x :: xs =>
    match f x with
    | some b => some b
    | none => firstSome f xs

/-- An acceptable image reference: matches the worker's `/^data:image\//i`
or `/^https?:\/\//i`. -/
def isValidRefB (r : String) : Bool :=
  prefixCI "data:image/".data r.data || prefixCI "https://".data r.data ||
    prefixCI "http://".data r.data

/-- A produced reference in good standing: accepted form, and already
trimmed. -/
def goodRef (r : String) : Prop := isValidRefB r = true ∧ jsTrim r = r

/-- The `image_size` field both handlers compute:
`sf_image_size || size`, kept only when that is a string. -/
def imageSizeField (body : JVal) : Option String :=
  match jOr (jget body "sf_image_size") (jget body "size") with
  | .str s => some s
  | _ => none

/-! ## General helper lemmas -/

lemma splitRun_append_stop (p : Char → Bool) (l : List Char) (b : Char) (m : List Char)
    (hl : ∀ c ∈ l, p c = true) (hb : p b = false) :
    splitRun p (l ++ b :: m) = (l, b :: m) := by
  induction l with
  | nil => simp [splitRun, hb]
  | cons a t ih =>
    have ha : p a = true := hl a (by simp)
    simp only [List.cons_append, splitRun, ha, if_true, List.append_eq]
    rw [ih (fun c hc => hl c (by simp [hc]))]

lemma pickFromAssistantRev_eq_firstSome (l : List JVal) :
    pickFromAssistantRev l =
      firstSome pickImageFromMessage
        (l.filter (fun m => jStrEq (jget m "role") "assistant")) := by
  induction l with
  | nil => rfl
  | cons m rest ih =>
    by_cases h : jStrEq (jget m "role") "assistant" = true
    · simp only [pickFromAssistantRev, h, if_true, List.filter_cons, firstSome, ih]
      cases pickImageFromMessage m <;> rfl
    · simp only [pickFromAssistantRev, h, if_false, List.filter_cons, firstSome, ih,
        Bool.false_eq_true]

/-! ## Claim C4 -/

/-- Claim C4: in the chat-completions handler the input-image search
follows the precedence (1) most recent user message, (2) top-level body
fields, (3) — edit models only — the most recent assistant message with an
extractable image, scanned with the same message-extraction logic as step
1; the first match wins, and if all steps fail the result is no image. -/
theorem claim_C4_chat_image_precedence (ms : List JVal) (body : JVal) (model : String) :
    (∀ r, pickImageFromMessage (findLastUser ms) = some r →
       chatPickImage ms body model = some r) ∧
    (pickImageFromMessage (findLastUser ms) = none →
       ∀ r, pickImageFromBody body = some r → chatPickImage ms body model = some r) ∧
    (pickImageFromMessage (findLastUser ms) = none → pickImageFromBody body = none →
       chatPickImage ms body model =
         (if isImageEditModel model then pickImageFromLastAssistant ms else none)) ∧
    (pickImageFromLastAssistant ms =
       firstSome pickImageFromMessage
         (ms.reverse.filter (fun m => jStrEq (jget m "role") "assistant"))) := by
  refine ⟨?_, ?_, ?_, ?_⟩
  · intro r h
    rw [chatPickImage, h]
  · intro h1 r h2
    rw [chatPickImage, h1, h2]
  · intro h1 h2
    rw [chatPickImage, h1, h2]
  · exact pickFromAssistantRev_eq_firstSome ms.reverse

/-- Witness for C4 at concrete inputs: a body-level image is used when the
last user message has none, and a non-edit model never falls back to
assistant messages. -/
theorem claim_C4_witness :
    chatPickImage [JVal.jobj [("role", .str "user"), ("content", .str "draw a cat")]]
      (JVal.jobj [("image", .str "https://a.b/in.png")]) "Kwai-Kolors/Kolors" =
      some "https://a.b/in.png" :=
  (claim_C4_chat_image_precedence
    [JVal.jobj [("role", .str "user"), ("content", .str "draw a cat")]]
    (JVal.jobj [("image", .str "https://a.b/in.png")]) "Kwai-Kolors/Kolors").2.1
    (by decide) "https://a.b/in.png" (by decide)

/-! ## Claim C5 -/

/-- Claim C5 counterexample: the degenerate URL `http://` satisfies every
side condition of the claim — it matches `^https?://`, contains no
whitespace, `)` or data URI — yet extracting from `![x](http://)` yields
nothing (the pattern requires at least one character after the scheme),
not the URL itself. -/
theorem claim_C5_counterexample :
    startsWithL "http://".data ("http://" : String).data = true ∧
    (∀ c ∈ ("http://" : String).data, isUrlChar c = true) ∧
    scanFor matchDataUriAt ("![x](http://)" : String).data = none ∧
    extractImageFromPlainText "![x](http://)" = none := by decide

/-- Claim C5 (amended): plain-text extraction tries the data-URI pattern,
then the Markdown image pattern, then the bare URL pattern, first match
winning; consequently for any URL `u` matching `^https?://` with at least
one character after the scheme and containing no whitespace or `)`
characters and no embedded data URI, extracting from `![x](u)` returns
exactly `u`, byte for byte. -/
theorem claim_C5_plain_text_roundtrip (u : String) (rest : List Char) (hrest : rest ≠ [])
    (hproto : u.data = "http://".data ++ rest ∨ u.data = "https://".data ++ rest)
    (hchars : ∀ c ∈ u.data, isUrlChar c = true)
    (hnodata : scanFor matchDataUriAt ("![x](" ++ u ++ ")").data = none) :
    extractImageFromPlainText ("![x](" ++ u ++ ")") = some u := by
  have hne : (("![x](" ++ u ++ ")") == "") = false := by
    rw [beq_eq_false_iff_ne]
    intro h
    have h2 : ("![x](" ++ u ++ ")").data = ("" : String).data := by rw [h]
    simp at h2
  have hrestchars : ∀ c ∈ rest, isUrlChar c = true := by
    intro c hc
    rcases hproto with h | h <;> exact hchars c (by rw [h]; simp [hc])
  have hsplit : splitRun isUrlChar (rest ++ [')']) = (rest, [')']) :=
    splitRun_append_stop isUrlChar rest ')' [] hrestchars (by decide)
  have hmd : matchMdAt ('!' :: '[' :: 'x' :: ']' :: '(' :: (u.data ++ [')'])) = some u.data := by
    rcases hproto with h | h <;> rw [h]
    · show (match splitRun isUrlChar (rest ++ [')']) with
           | ([], _) => none
           | (run, rest5) =>
             match rest5 with
             | ')' :: _ => some ("http://".data ++ run)
             | _ => none) = some ("http://".data ++ rest)
      rw [hsplit]
      rcases rest with _ | ⟨c, t⟩
      · exact absurd rfl hrest
      · rfl
    · show (match splitRun isUrlChar (rest ++ [')']) with
           | ([], _) => none
           | (run, rest5) =>
             match rest5 with
             | ')' :: _ => some ("https://".data ++ run)
             | _ => none) = some ("https://".data ++ rest)
      rw [hsplit]
      rcases rest with _ | ⟨c, t⟩
      · exact absurd rfl hrest
      · rfl
  rw [extractImageFromPlainText, hne]
  show (match scanFor matchDataUriAt ("![x](" ++ u ++ ")").data with
        | some r => some (String.mk r)
        | none =>
          match scanFor matchMdAt ("![x](" ++ u ++ ")").data with
          | some r => some (String.mk r)
          | none =>
            match scanFor matchBareAt ("![x](" ++ u ++ ")").data with
            | some r => some (String.mk r)
            | none => none) = some u
  rw [hnodata]
  have hdata : ("![x](" ++ u ++ ")").data = '!' :: '[' :: 'x' :: ']' :: '(' :: (u.data ++ [')']) := rfl
  rw [hdata, scanFor, hmd]

/-- Witness for C5 at `u = "https://example.com/a.png"`. -/
theorem claim_C5_witness :
    extractImageFromPlainText "![x](https://example.com/a.png)" =
      some "https://example.com/a.png" :=
  claim_C5_plain_text_roundtrip "https://example.com/a.png" "example.com/a.png".data
    (by decide) (Or.inr (by decide)) (by decide) (by decide)

/-! ## Claim C6 helpers -/

lemma dropWhile_cons_false {p : Char → Bool} {c : Char} {t : List Char} (h : p c = false) :
    (c :: t).dropWhile p = c :: t := by
  simp [List.dropWhile, h]

lemma dropWhile_head_false (p : Char → Bool) :
    ∀ (l : List Char) (c : Char) (t : List Char), l.dropWhile p = c :: t → p c = false := by
  intro l
  induction l with
  | nil => intro c t h; simp [List.dropWhile] at h
  | cons a l ih =>
    intro c t h
    by_cases ha : p a = true
    · rw [List.dropWhile_cons_of_pos ha] at h
      exact ih c t h
    · rw [List.dropWhile_cons_of_neg (by simpa using ha)] at h
      cases h
      simpa using ha

lemma dropWhile_idem (p : Char → Bool) (l : List Char) :
    (l.dropWhile p).dropWhile p = l.dropWhile p := by
  cases h : l.dropWhile p with
  | nil => rfl
  | cons c t => exact dropWhile_cons_false (dropWhile_head_false p l c t h)

lemma exists_append_dropWhile (p : Char → Bool) (l : List Char) :
    ∃ a, l = a ++ l.dropWhile p := by
  induction l with
  | nil => exact ⟨[], rfl⟩
  | cons c t ih =>
    by_cases h : p c = true
    · obtain ⟨a, ha⟩ := ih
      exact ⟨c :: a, by rw [List.dropWhile_cons_of_pos h]; simpa using ha⟩
    · refine ⟨[], ?_⟩
      rw [dropWhile_cons_false (by simpa using h)]
      rfl

lemma jsTrimL_idem (l : List Char) : jsTrimL (jsTrimL l) = jsTrimL l := by
  have h1 : (jsTrimL l).dropWhile isJsSpace = jsTrimL l := by
    cases hDr : jsTrimL l with
    | nil => rfl
    | cons c t =>
      obtain ⟨a, ha⟩ := exists_append_dropWhile isJsSpace (l.dropWhile isJsSpace).reverse
      have hA2 : l.dropWhile isJsSpace = jsTrimL l ++ a.reverse := by
        calc l.dropWhile isJsSpace
            = (l.dropWhile isJsSpace).reverse.reverse := by rw [List.reverse_reverse]
          _ = (a ++ ((l.dropWhile isJsSpace).reverse.dropWhile isJsSpace)).reverse := by
              rw [← ha]
          _ = ((l.dropWhile isJsSpace).reverse.dropWhile isJsSpace).reverse ++ a.reverse := by
              rw [List.reverse_append]
          _ = jsTrimL l ++ a.reverse := rfl
      have hc : isJsSpace c = false := by
        apply dropWhile_head_false isJsSpace l c (t ++ a.reverse)
        rw [hA2, hDr]
        rfl
      exact dropWhile_cons_false hc
  have h2 : (jsTrimL l).reverse.dropWhile isJsSpace = (jsTrimL l).reverse := by
    have hrev : (jsTrimL l).reverse = (l.dropWhile isJsSpace).reverse.dropWhile isJsSpace := by
      rw [jsTrimL, List.reverse_reverse]
    rw [hrev]
    exact dropWhile_idem isJsSpace (l.dropWhile isJsSpace).reverse
  show ((((jsTrimL l).dropWhile isJsSpace).reverse).dropWhile isJsSpace).reverse = jsTrimL l
  rw [h1, h2, List.reverse_reverse]

lemma jsTrim_idem (s : String) : jsTrim (jsTrim s) = jsTrim s := by
  show String.mk (jsTrimL (String.mk (jsTrimL s.data)).data) = String.mk (jsTrimL s.data)
  rw [show (String.mk (jsTrimL s.data)).data = jsTrimL s.data from rfl, jsTrimL_idem]

lemma dropWhile_eq_self_of_all {p : Char → Bool} {l : List Char}
    (h : ∀ c ∈ l, p c = false) : l.dropWhile p = l := by
  cases l with
  | nil => rfl
  | cons c t => exact dropWhile_cons_false (h c (by simp))

lemma jsTrimL_eq_self_of_all {l : List Char} (h : ∀ c ∈ l, isJsSpace c = false) :
    jsTrimL l = l := by
  rw [jsTrimL, dropWhile_eq_self_of_all h,
    dropWhile_eq_self_of_all (fun c hc => h c (List.mem_reverse.mp hc)), List.reverse_reverse]

lemma jsTrim_eq_self_of_all {s : String} (h : ∀ c ∈ s.data, isJsSpace c = false) :
    jsTrim s = s := by
  show String.mk (jsTrimL s.data) = s
  rw [jsTrimL_eq_self_of_all h]

lemma prefixCI_append_self (p l : List Char) : prefixCI p (p ++ l) = true := by
  induction p with
  | nil => rfl
  | cons c t ih => simp [prefixCI, ih]

lemma subtype_not_space {c : Char} (h : isSubtypeChar c = true) : isJsSpace c = false := by
  simp only [isSubtypeChar, Bool.or_eq_true, Bool.and_eq_true, decide_eq_true_eq,
    beq_iff_eq] at h
  simp only [isJsSpace, Bool.or_eq_false_iff, Bool.and_eq_false_iff,
    decide_eq_false_iff_not, beq_eq_false_iff_ne, ne_eq]
  omega

lemma b64_not_space {c : Char} (h : isB64Char c = true) : isJsSpace c = false := by
  simp only [isB64Char, Bool.or_eq_true, Bool.and_eq_true, decide_eq_true_eq,
    beq_iff_eq] at h
  simp only [isJsSpace, Bool.or_eq_false_iff, Bool.and_eq_false_iff,
    decide_eq_false_iff_not, beq_eq_false_iff_ne, ne_eq]
  omega

lemma url_not_space {c : Char} (h : isUrlChar c = true) : isJsSpace c = false := by
  simp only [isUrlChar, Bool.and_eq_true, Bool.not_eq_true'] at h
  exact h.1

lemma splitRun_mem (p : Char → Bool) (l : List Char) :
    ∀ c ∈ (splitRun p l).1, p c = true := by
  induction l with
  | nil => intro c hc; simp [splitRun] at hc
  | cons a t ih =>
    intro c hc
    by_cases ha : p a = true
    · simp only [splitRun, ha, if_true] at hc
      rcases (List.mem_cons).mp hc with h | h
      · rw [h]; exact ha
      · exact ih c h
    · simp only [splitRun, ha, if_false, Bool.false_eq_true] at hc
      simp at hc

lemma goodRef_of_chars {r : String}
    (hpre : prefixCI "data:image/".data r.data = true ∨
            prefixCI "https://".data r.data = true ∨
            prefixCI "http://".data r.data = true)
    (hsp : ∀ c ∈ r.data, isJsSpace c = false) : goodRef r := by
  constructor
  · rcases hpre with h | h | h <;> simp [isValidRefB, h]
  · exact jsTrim_eq_self_of_all hsp

lemma matchDataUriAt_good (l : List Char) (r : List Char)
    (h : matchDataUriAt l = some r) : goodRef (String.mk r) := by
  rw [matchDataUriAt] at h
  split at h
  · split at h
    · exact absurd h (by simp)
    · rename_i sub rest2 heq hne
      split at h
      · split at h
        · exact absurd h (by simp)
        · rename_i pay rest4 heq2 hne2
          injection h with h
          subst h
          apply goodRef_of_chars
          · left
            rw [show (String.mk ("data:image/".data ++ sub ++ ";base64,".data ++ pay)).data
                  = "data:image/".data ++ (sub ++ (";base64,".data ++ pay)) by
                simp [List.append_assoc]]
            exact prefixCI_append_self _ _
          · intro c hc
            simp only [List.mem_append] at hc
            rcases hc with ((hc | hc) | hc) | hc
            · revert c
              decide
            · have := splitRun_mem isSubtypeChar (l.drop 11) c (by rw [hne]; exact hc)
              exact subtype_not_space this
            · revert c
              decide
            · have := splitRun_mem isB64Char (rest2.drop 8) c (by rw [hne2]; exact hc)
              exact b64_not_space this
      · exact absurd h (by simp)
  · exact absurd h (by simp)

lemma protoAt_cases (l proto : List Char) (h : protoAt l = some proto) :
    proto = "https://".data ∨ proto = "http://".data := by
  rw [protoAt.eq_def] at h
  split at h
  · injection h with h
    exact Or.inl h.symm
  · injection h with h
    exact Or.inr h.symm
  · exact absurd h (by simp)

lemma proto_run_good {proto run : List Char}
    (hp : proto = "https://".data ∨ proto = "http://".data)
    (hrun : ∀ c ∈ run, isUrlChar c = true) : goodRef (String.mk (proto ++ run)) := by
  apply goodRef_of_chars
  · right
    rcases hp with h | h
    · left
      rw [show (String.mk (proto ++ run)).data = proto ++ run from rfl, h]
      exact prefixCI_append_self _ _
    · right
      rw [show (String.mk (proto ++ run)).data = proto ++ run from rfl, h]
      exact prefixCI_append_self _ _
  · intro c hc
    simp only [show (String.mk (proto ++ run)).data = proto ++ run from rfl,
      List.mem_append] at hc
    rcases hc with hc | hc
    · rcases hp with h | h <;> rw [h] at hc <;> revert c <;> decide
    · exact url_not_space (hrun c hc)

lemma matchMdAt_good (l : List Char) (r : List Char)
    (h : matchMdAt l = some r) : goodRef (String.mk r) := by
  rw [matchMdAt.eq_def] at h
  split at h
  · rename_i rest
    split at h
    · exact absurd h (by simp)
    · rename_i rest3 _
      split at h
      · exact absurd h (by simp)
      · rename_i proto hproto
        split at h
        · exact absurd h (by simp)
        · rename_i run rest5 heq hne
          split at h
          · injection h with h
            subst h
            exact proto_run_good (protoAt_cases _ _ hproto)
              (fun c hc => splitRun_mem isUrlChar (rest3.drop proto.length) c
                (by rw [hne]; exact hc))
          · exact absurd h (by simp)
  · exact absurd h (by simp)

lemma matchBareAt_good (l : List Char) (r : List Char)
    (h : matchBareAt l = some r) : goodRef (String.mk r) := by
  rw [matchBareAt.eq_def] at h
  split at h
  · exact absurd h (by simp)
  · rename_i proto hproto
    split at h
    · exact absurd h (by simp)
    · rename_i run rest5 heq hne
      injection h with h
      subst h
      exact proto_run_good (protoAt_cases _ _ hproto)
        (fun c hc => splitRun_mem isUrlChar (l.drop proto.length) c (by rw [hne]; exact hc))

lemma scanFor_good (f : List Char → Option (List Char))
    (hP : ∀ l r, f l = some r → goodRef (String.mk r)) :
    ∀ l r, scanFor f l = some r → goodRef (String.mk r) := by
  intro l
  induction l with
  | nil => intro r h; exact hP [] r h
  | cons c t ih =>
    intro r h
    rw [scanFor] at h
    split at h
    · rename_i r2 heq
      injection h with h
      subst h
      exact hP _ _ heq
    · exact ih r h

lemma extractImageFromPlainText_good (s : String) (r : String)
    (h : extractImageFromPlainText s = some r) : goodRef r := by
  rw [extractImageFromPlainText] at h
  split at h
  · exact absurd h (by simp)
  · split at h
    · rename_i x heq
      injection h with h
      subst h
      exact scanFor_good matchDataUriAt matchDataUriAt_good s.data x heq
    · split at h
      · rename_i x heq
        injection h with h
        subst h
        exact scanFor_good matchMdAt matchMdAt_good s.data x heq
      · split at h
        · rename_i x heq
          injection h with h
          subst h
          exact scanFor_good matchBareAt matchBareAt_good s.data x heq
        · exact absurd h (by simp)

lemma normalizeImageString_some (v : JVal) (r : String)
    (h : normalizeImageString v = some r) : goodRef r := by
  simp only [normalizeImageString] at h
  split at h
  · rename_i hpre
    injection h with h
    subst h
    exact ⟨by simp [isValidRefB, hpre], jsTrim_idem _⟩
  · split at h
    · rename_i hpre
      injection h with h
      subst h
      refine ⟨?_, jsTrim_idem _⟩
      rcases Bool.or_eq_true_iff.mp hpre with h2 | h2 <;> simp [isValidRefB, h2]
    · exact absurd h (by simp)

lemma normalizeImageString_none (v : JVal)
    (h : isValidRefB (jsTrim (jsToString v)) = false) : normalizeImageString v = none := by
  simp only [isValidRefB, Bool.or_eq_false_iff] at h
  obtain ⟨⟨h1, h2⟩, h3⟩ := h
  simp only [normalizeImageString, h1, h2, h3, Bool.or_self, Bool.false_eq_true, if_false]

lemma coerceImageStringOrObj_good (v : JVal) (r : String)
    (h : coerceImageStringOrObj v = some r) : goodRef r := by
  cases v with
  | str s =>
    rw [coerceImageStringOrObj] at h
    split at h
    · exact absurd h (by simp)
    · exact normalizeImageString_some _ _ h
  | arrNil =>
    rw [coerceImageStringOrObj] at h
    split at h
    · exact absurd h (by simp)
    · split at h
      · exact normalizeImageString_some _ _ h
      · exact absurd h (by simp)
  | arrCons hd tl =>
    rw [coerceImageStringOrObj] at h
    split at h
    · exact absurd h (by simp)
    · split at h
      · exact normalizeImageString_some _ _ h
      · exact absurd h (by simp)
  | objNil =>
    rw [coerceImageStringOrObj] at h
    split at h
    · exact absurd h (by simp)
    · split at h
      · exact normalizeImageString_some _ _ h
      · exact absurd h (by simp)
  | objCons k x t =>
    rw [coerceImageStringOrObj] at h
    split at h
    · exact absurd h (by simp)
    · split at h
      · exact normalizeImageString_some _ _ h
      · exact absurd h (by simp)
  | undefined => exact absurd h (by simp [coerceImageStringOrObj, jvTruthy])
  | null => exact absurd h (by simp [coerceImageStringOrObj, jvTruthy])
  | bool b => exact absurd h (by simp [coerceImageStringOrObj, jvTruthy])
  | num n => exact absurd h (by simp [coerceImageStringOrObj, jvTruthy])

lemma plainItemImage_good (it : JVal) (r : String)
    (h : plainItemImage it = some r) : goodRef r := by
  cases it <;> simp only [plainItemImage] at h
  case str s => exact extractImageFromPlainText_good _ _ h
  all_goals exact absurd h (by simp)

lemma tryContentItem_good (it : JVal) (r : String)
    (h : tryContentItem it = some r) : goodRef r := by
  rw [tryContentItem] at h
  split at h
  · rename_i heq
    injection h with h
    subst h
    split at heq
    · exact coerceImageStringOrObj_good _ _ heq
    · exact absurd heq (by simp)
  · split at h
    · rename_i heq
      injection h with h
      subst h
      split at heq
      · exact coerceImageStringOrObj_good _ _ heq
      · exact absurd heq (by simp)
    · split at h
      · rename_i heq
        injection h with h
        subst h
        exact plainItemImage_good _ _ heq
      · split at h
        · exact coerceImageStringOrObj_good _ _ h
        · exact absurd h (by simp)

lemma firstContentImage_good (l : List JVal) (r : String)
    (h : firstContentImage l = some r) : goodRef r := by
  induction l with
  | nil => exact absurd h (by simp [firstContentImage])
  | cons x xs ih =>
    rw [firstContentImage] at h
    split at h
    · rename_i heq
      injection h with h
      subst h
      exact tryContentItem_good _ _ heq
    · exact ih h

lemma firstCoerce_good (l : List JVal) (r : String)
    (h : firstCoerce l = some r) : goodRef r := by
  induction l with
  | nil => exact absurd h (by simp [firstCoerce])
  | cons x xs ih =>
    rw [firstCoerce] at h
    split at h
    · rename_i heq
      injection h with h
      subst h
      exact coerceImageStringOrObj_good _ _ heq
    · exact ih h

lemma pickImageFromMessage_good (m : JVal) (r : String)
    (h : pickImageFromMessage m = some r) : goodRef r := by
  rw [pickImageFromMessage] at h
  split at h
  · exact absurd h (by simp)
  · split at h
    · rename_i heq
      injection h with h
      subst h
      split at heq
      · exact firstContentImage_good _ _ heq
      · exact absurd heq (by simp)
    · split at h
      · exact extractImageFromPlainText_good _ _ h
      · exact absurd h (by simp)

lemma pickImageFromBody_good (b : JVal) (r : String)
    (h : pickImageFromBody b = some r) : goodRef r := by
  simp only [pickImageFromBody] at h
  split at h
  · exact absurd h (by simp)
  · split at h
    · rename_i heq
      injection h with h
      subst h
      exact coerceImageStringOrObj_good _ _ heq
    · split at h
      · exact firstCoerce_good _ _ h
      · exact absurd h (by simp)

lemma pickFromAssistantRev_good (l : List JVal) (r : String)
    (h : pickFromAssistantRev l = some r) : goodRef r := by
  induction l with
  | nil => exact absurd h (by simp [pickFromAssistantRev])
  | cons m rest ih =>
    rw [pickFromAssistantRev] at h
    split at h
    · split at h
      · rename_i heq
        injection h with h
        subst h
        exact pickImageFromMessage_good _ _ heq
      · exact ih h
    · exact ih h

/-! ## Claim C6 -/

/-- Claim C6: every image reference produced by the extraction pipeline —
from message content, top-level body fields, plain text, or the chat
handler's combined search — matches `^data:image/` or `^https?://`
(case-insensitively, as the worker's patterns do) and is its own trim, so
the trimmed reference matches one of the two forms; and a candidate whose
coerced string form matches neither form is rejected by the normaliser
(`none`), never turned into an invalid reference. -/
theorem claim_C6_imageref_invariant :
    (∀ v r, coerceImageStringOrObj v = some r → isValidRefB r = true ∧ jsTrim r = r) ∧
    (∀ s r, extractImageFromPlainText s = some r → isValidRefB r = true ∧ jsTrim r = r) ∧
    (∀ m r, pickImageFromMessage m = some r → isValidRefB r = true ∧ jsTrim r = r) ∧
    (∀ b r, pickImageFromBody b = some r → isValidRefB r = true ∧ jsTrim r = r) ∧
    (∀ ms r, pickImageFromLastAssistant ms = some r → isValidRefB r = true ∧ jsTrim r = r) ∧
    (∀ ms b mo r, chatPickImage ms b mo = some r → isValidRefB r = true ∧ jsTrim r = r) ∧
    (∀ v, isValidRefB (jsTrim (jsToString v)) = false → normalizeImageString v = none) := by
  refine ⟨coerceImageStringOrObj_good, extractImageFromPlainText_good,
    pickImageFromMessage_good, pickImageFromBody_good,
    fun ms r h => pickFromAssistantRev_good _ _ h, ?_, normalizeImageString_none⟩
  intro ms b mo r h
  rw [chatPickImage] at h
  split at h
  · rename_i heq
    injection h with h
    subst h
    exact pickImageFromMessage_good _ _ heq
  · split at h
    · rename_i heq
      injection h with h
      subst h
      exact pickImageFromBody_good _ _ heq
    · split at h
      · exact pickFromAssistantRev_good _ _ h
      · exact absurd h (by simp)

/-- Witness for C6: a padded URL string is coerced to its trimmed form,
which is valid and trim-fixed. -/
theorem claim_C6_witness :
    isValidRefB "https://a.b/x.png" = true ∧ jsTrim "https://a.b/x.png" = "https://a.b/x.png" :=
  claim_C6_imageref_invariant.1 (.str "  https://a.b/x.png ") "https://a.b/x.png" (by decide)

/-! ## Claim C2 helpers -/

lemma copyStep_proj {α : Type} (f : SFPayload → α) (src : JVal) (key : String)
    (set : SFPayload → JVal → SFPayload) (p : SFPayload)
    (hset : ∀ q v, f (set q v) = f q) : f (copyStep src key set p) = f p := by
  rw [copyStep]
  split
  · rfl
  · apply hset

lemma copyStep_of_undef {src : JVal} {key : String}
    {set : SFPayload → JVal → SFPayload} {p : SFPayload}
    (h : jget src key = .undefined) : copyStep src key set p = p := by
  rw [copyStep, h]

lemma copyStep_of_val {src : JVal} {key : String}
    {set : SFPayload → JVal → SFPayload} {p : SFPayload}
    (h : jget src key ≠ .undefined) : copyStep src key set p = set p (jget src key) := by
  rw [copyStep]
  split
  · rename_i heq
    exact absurd heq h
  · rfl

lemma jvTruthy_of_get {v : JVal} {k : String} (h : jget v k ≠ .undefined) :
    jvTruthy v = true := by
  cases v <;> first | (exact absurd rfl h) | rfl

lemma cip_not_falsy {src : JVal} {p0 : SFPayload} (h : jvTruthy src = true) :
    copyIfPresent src p0 =
      copyStep src "sf_batch_size" setBatch
        (copyStep src "seed" setSeed
          (copyStep src "sf_seed" setSeed
            (copyStep src "cfg" setCfg
              (copyStep src "sf_cfg" setCfg
                (copyStep src "guidance_scale" setGuid
                  (copyStep src "sf_guidance_scale" setGuid
                    (copyStep src "num_inference_steps" setSteps
                      (copyStep src "sf_num_steps" setSteps
                        (copyStep src "negative_prompt" setNeg
                          (copyStep src "sf_negative_prompt" setNeg
                            p0)))))))))) := by
  rw [copyIfPresent, h]
  rfl

lemma cip_proj {α : Type} (f : SFPayload → α) (src : JVal) (p0 : SFPayload)
    (h1 : ∀ q v, f (setNeg q v) = f q) (h2 : ∀ q v, f (setSteps q v) = f q)
    (h3 : ∀ q v, f (setGuid q v) = f q) (h4 : ∀ q v, f (setCfg q v) = f q)
    (h5 : ∀ q v, f (setSeed q v) = f q) (h6 : ∀ q v, f (setBatch q v) = f q) :
    f (copyIfPresent src p0) = f p0 := by
  rw [copyIfPresent]
  split
  · rfl
  · exact (copyStep_proj f _ _ setBatch _ h6).trans
      ((copyStep_proj f _ _ setSeed _ h5).trans
        ((copyStep_proj f _ _ setSeed _ h5).trans
          ((copyStep_proj f _ _ setCfg _ h4).trans
            ((copyStep_proj f _ _ setCfg _ h4).trans
              ((copyStep_proj f _ _ setGuid _ h3).trans
                ((copyStep_proj f _ _ setGuid _ h3).trans
                  ((copyStep_proj f _ _ setSteps _ h2).trans
                    ((copyStep_proj f _ _ setSteps _ h2).trans
                      ((copyStep_proj f _ _ setNeg _ h1).trans
                        (copyStep_proj f _ _ setNeg _ h1))))))))))

lemma cip_negative_prompt {src : JVal} {p0 : SFPayload}
    (hc : jget src "negative_prompt" ≠ .undefined) :
    (copyIfPresent src p0).negative_prompt = some (jget src "negative_prompt") := by
  rw [cip_not_falsy (jvTruthy_of_get hc)]
  refine ((copyStep_proj SFPayload.negative_prompt _ _ setBatch _ (fun q v => rfl)).trans
    ((copyStep_proj SFPayload.negative_prompt _ _ setSeed _ (fun q v => rfl)).trans
      ((copyStep_proj SFPayload.negative_prompt _ _ setSeed _ (fun q v => rfl)).trans
        ((copyStep_proj SFPayload.negative_prompt _ _ setCfg _ (fun q v => rfl)).trans
          ((copyStep_proj SFPayload.negative_prompt _ _ setCfg _ (fun q v => rfl)).trans
            ((copyStep_proj SFPayload.negative_prompt _ _ setGuid _ (fun q v => rfl)).trans
              ((copyStep_proj SFPayload.negative_prompt _ _ setGuid _ (fun q v => rfl)).trans
                ((copyStep_proj SFPayload.negative_prompt _ _ setSteps _ (fun q v => rfl)).trans
                  ((copyStep_proj SFPayload.negative_prompt _ _ setSteps _ (fun q v => rfl)).trans
                    ?_)))))))))
  rw [copyStep_of_val hc]
  rfl

lemma cip_num_steps {src : JVal} {p0 : SFPayload}
    (hc : jget src "num_inference_steps" ≠ .undefined) :
    (copyIfPresent src p0).num_inference_steps = some (jget src "num_inference_steps") := by
  rw [cip_not_falsy (jvTruthy_of_get hc)]
  refine ((copyStep_proj SFPayload.num_inference_steps _ _ setBatch _ (fun q v => rfl)).trans
    ((copyStep_proj SFPayload.num_inference_steps _ _ setSeed _ (fun q v => rfl)).trans
      ((copyStep_proj SFPayload.num_inference_steps _ _ setSeed _ (fun q v => rfl)).trans
        ((copyStep_proj SFPayload.num_inference_steps _ _ setCfg _ (fun q v => rfl)).trans
          ((copyStep_proj SFPayload.num_inference_steps _ _ setCfg _ (fun q v => rfl)).trans
            ((copyStep_proj SFPayload.num_inference_steps _ _ setGuid _ (fun q v => rfl)).trans
              ((copyStep_proj SFPayload.num_inference_steps _ _ setGuid _ (fun q v => rfl)).trans
                ?_)))))))
  rw [copyStep_of_val hc]
  rfl

lemma cip_guidance {src : JVal} {p0 : SFPayload}
    (hc : jget src "guidance_scale" ≠ .undefined) :
    (copyIfPresent src p0).guidance_scale = some (jget src "guidance_scale") := by
  rw [cip_not_falsy (jvTruthy_of_get hc)]
  refine ((copyStep_proj SFPayload.guidance_scale _ _ setBatch _ (fun q v => rfl)).trans
    ((copyStep_proj SFPayload.guidance_scale _ _ setSeed _ (fun q v => rfl)).trans
      ((copyStep_proj SFPayload.guidance_scale _ _ setSeed _ (fun q v => rfl)).trans
        ((copyStep_proj SFPayload.guidance_scale _ _ setCfg _ (fun q v => rfl)).trans
          ((copyStep_proj SFPayload.guidance_scale _ _ setCfg _ (fun q v => rfl)).trans
            ?_)))))
  rw [copyStep_of_val hc]
  rfl

lemma cip_cfg {src : JVal} {p0 : SFPayload}
    (hc : jget src "cfg" ≠ .undefined) :
    (copyIfPresent src p0).cfg = some (jget src "cfg") := by
  rw [cip_not_falsy (jvTruthy_of_get hc)]
  refine ((copyStep_proj SFPayload.cfg _ _ setBatch _ (fun q v => rfl)).trans
    ((copyStep_proj SFPayload.cfg _ _ setSeed _ (fun q v => rfl)).trans
      ((copyStep_proj SFPayload.cfg _ _ setSeed _ (fun q v => rfl)).trans
        ?_)))
  rw [copyStep_of_val hc]
  rfl

lemma cip_seed_canonical {src : JVal} {p0 : SFPayload}
    (hc : jget src "seed" ≠ .undefined) :
    (copyIfPresent src p0).seed = some (jget src "seed") := by
  rw [cip_not_falsy (jvTruthy_of_get hc)]
  refine ((copyStep_proj SFPayload.seed _ _ setBatch _ (fun q v => rfl)).trans ?_)
  rw [copyStep_of_val hc]
  rfl

lemma cip_seed_alias {src : JVal} {p0 : SFPayload}
    (hcu : jget src "seed" = .undefined) (ha : jget src "sf_seed" ≠ .undefined) :
    (copyIfPresent src p0).seed = some (jget src "sf_seed") := by
  rw [cip_not_falsy (jvTruthy_of_get ha)]
  refine ((copyStep_proj SFPayload.seed _ _ setBatch _ (fun q v => rfl)).trans ?_)
  rw [copyStep_of_undef hcu, copyStep_of_val ha]
  rfl

lemma cip_seed_absent {src : JVal} {p0 : SFPayload}
    (hcu : jget src "seed" = .undefined) (hau : jget src "sf_seed" = .undefined) :
    (copyIfPresent src p0).seed = p0.seed := by
  rw [copyIfPresent]
  split
  · rfl
  · refine ((copyStep_proj SFPayload.seed _ _ setBatch _ (fun q v => rfl)).trans ?_)
    rw [copyStep_of_undef hcu, copyStep_of_undef hau]
    exact (copyStep_proj SFPayload.seed _ _ setCfg _ (fun q v => rfl)).trans
      ((copyStep_proj SFPayload.seed _ _ setCfg _ (fun q v => rfl)).trans
        ((copyStep_proj SFPayload.seed _ _ setGuid _ (fun q v => rfl)).trans
          ((copyStep_proj SFPayload.seed _ _ setGuid _ (fun q v => rfl)).trans
            ((copyStep_proj SFPayload.seed _ _ setSteps _ (fun q v => rfl)).trans
              ((copyStep_proj SFPayload.seed _ _ setSteps _ (fun q v => rfl)).trans
                ((copyStep_proj SFPayload.seed _ _ setNeg _ (fun q v => rfl)).trans
                  (copyStep_proj SFPayload.seed _ _ setNeg _ (fun q v => rfl))))))))

lemma cip_batch_absent {src : JVal} {p0 : SFPayload}
    (h : jget src "sf_batch_size" = .undefined) :
    (copyIfPresent src p0).batch_size = p0.batch_size := by
  rw [copyIfPresent]
  split
  · rfl
  · rw [copyStep_of_undef h]
    exact (copyStep_proj SFPayload.batch_size _ _ setSeed _ (fun q v => rfl)).trans
      ((copyStep_proj SFPayload.batch_size _ _ setSeed _ (fun q v => rfl)).trans
        ((copyStep_proj SFPayload.batch_size _ _ setCfg _ (fun q v => rfl)).trans
          ((copyStep_proj SFPayload.batch_size _ _ setCfg _ (fun q v => rfl)).trans
            ((copyStep_proj SFPayload.batch_size _ _ setGuid _ (fun q v => rfl)).trans
              ((copyStep_proj SFPayload.batch_size _ _ setGuid _ (fun q v => rfl)).trans
                ((copyStep_proj SFPayload.batch_size _ _ setSteps _ (fun q v => rfl)).trans
                  ((copyStep_proj SFPayload.batch_size _ _ setSteps _ (fun q v => rfl)).trans
                    ((copyStep_proj SFPayload.batch_size _ _ setNeg _ (fun q v => rfl)).trans
                      (copyStep_proj SFPayload.batch_size _ _ setNeg _ (fun q v => rfl))))))))))

lemma mkCommon_image_size (body : JVal) (m p : String) (img : Option String) :
    (mkCommonPayload body m p img).image_size = imageSizeField body := by
  show (copyIfPresent body _).image_size = imageSizeField body
  refine (cip_proj SFPayload.image_size _ _ (fun q v => rfl) (fun q v => rfl) (fun q v => rfl)
    (fun q v => rfl) (fun q v => rfl) (fun q v => rfl)).trans ?_
  rw [imageSizeField]
  cases hX : jOr (jget body "sf_image_size") (jget body "size") <;> rfl

lemma mkCommon_model (body : JVal) (m p : String) (img : Option String) :
    (mkCommonPayload body m p img).model = m := by
  show (copyIfPresent body _).model = m
  refine (cip_proj SFPayload.model _ _ (fun q v => rfl) (fun q v => rfl) (fun q v => rfl)
    (fun q v => rfl) (fun q v => rfl) (fun q v => rfl)).trans ?_
  cases hX : jOr (jget body "sf_image_size") (jget body "size") <;> rfl

lemma mkCommon_prompt (body : JVal) (m p : String) (img : Option String) :
    (mkCommonPayload body m p img).prompt = p := by
  show (copyIfPresent body _).prompt = p
  refine (cip_proj SFPayload.prompt _ _ (fun q v => rfl) (fun q v => rfl) (fun q v => rfl)
    (fun q v => rfl) (fun q v => rfl) (fun q v => rfl)).trans ?_
  cases hX : jOr (jget body "sf_image_size") (jget body "size") <;> rfl

lemma mkCommon_image (body : JVal) (m p : String) (img : Option String) :
    (mkCommonPayload body m p img).image = img := by
  show (copyIfPresent body _).image = img
  refine (cip_proj SFPayload.image _ _ (fun q v => rfl) (fun q v => rfl) (fun q v => rfl)
    (fun q v => rfl) (fun q v => rfl) (fun q v => rfl)).trans ?_
  cases hX : jOr (jget body "sf_image_size") (jget body "size") <;> rfl

lemma mkCommon_seed_absent {body : JVal} {m p : String} {img : Option String}
    (hcu : jget body "seed" = .undefined) (hau : jget body "sf_seed" = .undefined) :
    (mkCommonPayload body m p img).seed = none := by
  show (copyIfPresent body _).seed = none
  refine (cip_seed_absent hcu hau).trans ?_
  cases hX : jOr (jget body "sf_image_size") (jget body "size") <;> rfl

lemma mkCommon_batch_absent {body : JVal} {m p : String} {img : Option String}
    (h : jget body "sf_batch_size" = .undefined) :
    (mkCommonPayload body m p img).batch_size = none := by
  show (copyIfPresent body _).batch_size = none
  refine (cip_batch_absent h).trans ?_
  cases hX : jOr (jget body "sf_image_size") (jget body "size") <;> rfl

/-! ## Claim C2 -/

/-- Claim C2 counterexample: with both `sf_image_size: "512x512"` and the
canonical OpenAI `size: "1024x1024"` present, the payload sent upstream
carries `image_size = "512x512"` — the `sf_` alias, not the canonical
field, wins for `image_size`. -/
theorem claim_C2_counterexample :
    (imagesGenerations
        (JVal.jobj [("model", .str "Qwen/Qwen-Image"), ("prompt", .str "a cat"),
          ("sf_image_size", .str "512x512"), ("size", .str "1024x1024")])
        (some "k") (fun _ => ⟨0, by decide⟩) (fun _ => .ok ⟨[some "https://u/1.png"]⟩)
        (fun _ => .error "no fetch")).map
      (fun r => r.callPayloads.map SFPayload.image_size) = .ok [some "512x512"] ∧
    some ("512x512" : String) ≠ some ("1024x1024" : String) := ⟨rfl, by decide⟩

/-- Claim C2 (amended): for the five aliased destination fields copied by
`copyIfPresent` (`negative_prompt`, `num_inference_steps`,
`guidance_scale`, `cfg`, `seed`), when the canonical/OpenAI source field is
present in the request body — in particular when both it and the
`sf_`-prefixed alias are present — the value forwarded in the upstream
payload is the canonical field's value, in both endpoint handlers (both
build their payload through `mkCommonPayload`).  For `image_size` the rule
differs: a truthy `sf_image_size` wins over the OpenAI `size` field, which
is used only when `sf_image_size` is falsy. -/
theorem claim_C2_param_precedence (body : JVal) (m p : String) (img : Option String) :
    (jget body "negative_prompt" ≠ .undefined →
       (mkCommonPayload body m p img).negative_prompt = some (jget body "negative_prompt")) ∧
    (jget body "num_inference_steps" ≠ .undefined →
       (mkCommonPayload body m p img).num_inference_steps
         = some (jget body "num_inference_steps")) ∧
    (jget body "guidance_scale" ≠ .undefined →
       (mkCommonPayload body m p img).guidance_scale = some (jget body "guidance_scale")) ∧
    (jget body "cfg" ≠ .undefined →
       (mkCommonPayload body m p img).cfg = some (jget body "cfg")) ∧
    (jget body "seed" ≠ .undefined →
       (mkCommonPayload body m p img).seed = some (jget body "seed")) ∧
    (∀ s, jget body "sf_image_size" = .str s → s ≠ "" →
       (mkCommonPayload body m p img).image_size = some s) ∧
    (∀ s, jvTruthy (jget body "sf_image_size") = false → jget body "size" = .str s →
       (mkCommonPayload body m p img).image_size = some s) := by
  refine ⟨fun hc => cip_negative_prompt hc, fun hc => cip_num_steps hc,
    fun hc => cip_guidance hc, fun hc => cip_cfg hc, fun hc => cip_seed_canonical hc,
    ?_, ?_⟩
  · intro s hs hne
    rw [mkCommon_image_size, imageSizeField]
    have : jOr (jget body "sf_image_size") (jget body "size") = .str s := by
      rw [hs, jOr]
      simp [jvTruthy, hne]
    rw [this]
  · intro s hf hs
    rw [mkCommon_image_size, imageSizeField]
    have : jOr (jget body "sf_image_size") (jget body "size") = .str s := by
      rw [jOr, hf]
      simp [hs]
    rw [this]

/-- Witness for C2 at a body carrying both alias and canonical values. -/
theorem claim_C2_witness :
    (mkCommonPayload
        (JVal.jobj [("sf_seed", .num 11), ("seed", .num 22), ("sf_image_size", .str "A"),
          ("size", .str "B")]) "m" "p" none).seed = some (.num 22) ∧
    (mkCommonPayload
        (JVal.jobj [("sf_seed", .num 11), ("seed", .num 22), ("sf_image_size", .str "A"),
          ("size", .str "B")]) "m" "p" none).image_size = some "A" :=
  ⟨(claim_C2_param_precedence _ "m" "p" none).2.2.2.2.1 (by decide),
   (claim_C2_param_precedence _ "m" "p" none).2.2.2.2.2.1 "A" (by decide) (by decide)⟩

/-! ## Claim C3 helpers: decimal round trip -/

lemma digitChar_toNat {d : Nat} (h : d < 10) : (Char.ofNat (48 + d)).toNat = 48 + d := by
  interval_cases d <;> decide

lemma digitChar_isDigit {d : Nat} (h : d < 10) : isDigitC (Char.ofNat (48 + d)) = true := by
  interval_cases d <;> decide

lemma natToCharsAux_digits :
    ∀ fuel n, n < fuel → ∀ c ∈ natToCharsAux fuel n, isDigitC c = true := by
  intro fuel
  induction fuel with
  | zero => intro n h; omega
  | succ f ih =>
    intro n h c hc
    rw [natToCharsAux] at hc
    by_cases h10 : n < 10
    · rw [if_pos h10] at hc
      simp only [List.mem_singleton] at hc
      rw [hc]
      exact digitChar_isDigit h10
    · rw [if_neg h10] at hc
      rcases List.mem_append.mp hc with hm | hm
      · exact ih (n / 10) (by omega) c hm
      · simp only [List.mem_singleton] at hm
        rw [hm]
        exact digitChar_isDigit (by omega)

lemma natToCharsAux_ne_nil :
    ∀ fuel n, n < fuel → natToCharsAux fuel n ≠ [] := by
  intro fuel
  induction fuel with
  | zero => intro n h; omega
  | succ f ih =>
    intro n h
    rw [natToCharsAux]
    by_cases h10 : n < 10
    · rw [if_pos h10]
      simp
    · rw [if_neg h10]
      simp

lemma digitsVal_append_digit (l : List Char) (c : Char) :
    digitsVal (l ++ [c]) = 10 * digitsVal l + (c.toNat - 48) := by
  rw [digitsVal, List.foldl_append]
  rfl

lemma natToCharsAux_val :
    ∀ fuel n, n < fuel → digitsVal (natToCharsAux fuel n) = n := by
  intro fuel
  induction fuel with
  | zero => intro n h; omega
  | succ f ih =>
    intro n h
    rw [natToCharsAux]
    by_cases h10 : n < 10
    · rw [if_pos h10]
      show digitsVal ([] ++ [Char.ofNat (48 + n)]) = n
      rw [digitsVal_append_digit, digitChar_toNat h10]
      simp [digitsVal]
    · rw [if_neg h10]
      rw [digitsVal_append_digit, ih (n / 10) (by omega), digitChar_toNat (by omega)]
      omega

lemma takeWhile_eq_self_of_all {p : Char → Bool} {l : List Char}
    (h : ∀ c ∈ l, p c = true) : l.takeWhile p = l := by
  induction l with
  | nil => rfl
  | cons c t ih =>
    rw [List.takeWhile_cons_of_pos (h c (by simp))]
    rw [ih (fun x hx => h x (by simp [hx]))]

lemma digitsPrefix_all {l : List Char} (hne : l ≠ [])
    (h : ∀ c ∈ l, isDigitC c = true) : digitsPrefix l = some (digitsVal l) := by
  rw [digitsPrefix]
  simp only [takeWhile_eq_self_of_all h]
  rw [if_neg (by simpa using hne)]

lemma digit_not_space {c : Char} (h : isDigitC c = true) : isJsSpace c = false := by
  simp only [isDigitC, Bool.and_eq_true, decide_eq_true_eq] at h
  simp only [isJsSpace, Bool.or_eq_false_iff, Bool.and_eq_false_iff,
    decide_eq_false_iff_not, beq_eq_false_iff_ne, ne_eq]
  omega

lemma parseIntJs_natToStr (n : Nat) : parseIntJs (natToStr n) = some (n : Int) := by
  have hd : ∀ c ∈ natToCharsAux (n+1) n, isDigitC c = true :=
    natToCharsAux_digits (n+1) n (by omega)
  have hne : natToCharsAux (n+1) n ≠ [] := natToCharsAux_ne_nil (n+1) n (by omega)
  have hdrop : (natToStr n).data.dropWhile isJsSpace = natToCharsAux (n+1) n := by
    show (natToCharsAux (n+1) n).dropWhile isJsSpace = natToCharsAux (n+1) n
    exact dropWhile_eq_self_of_all (fun c hc => digit_not_space (hd c hc))
  rw [parseIntJs]
  rw [hdrop]
  split
  · rename_i t heq
    have := hd '-' (by rw [heq]; simp)
    simp [isDigitC] at this
  · rename_i t heq
    have := hd '+' (by rw [heq]; simp)
    simp [isDigitC] at this
  · rw [digitsPrefix_all hne hd, natToCharsAux_val (n+1) n (by omega)]
    rfl

lemma parseIntJs_intToStr (k : Int) : parseIntJs (intToStr k) = some k := by
  cases k with
  | ofNat n => exact parseIntJs_natToStr n
  | negSucc m =>
    have hd : ∀ c ∈ natToCharsAux (m+2) (m+1), isDigitC c = true :=
      natToCharsAux_digits (m+2) (m+1) (by omega)
    have hne : natToCharsAux (m+2) (m+1) ≠ [] := natToCharsAux_ne_nil (m+2) (m+1) (by omega)
    have hdata : (intToStr (Int.negSucc m)).data = '-' :: natToCharsAux (m+2) (m+1) := rfl
    rw [parseIntJs, hdata]
    have hdrop : ('-' :: natToCharsAux (m+2) (m+1)).dropWhile isJsSpace
        = '-' :: natToCharsAux (m+2) (m+1) := dropWhile_cons_false (by decide)
    rw [hdrop]
    show (digitsPrefix (natToCharsAux (m+2) (m+1))).map (fun n => -(n : Int))
      = some (Int.negSucc m)
    rw [digitsPrefix_all hne hd, natToCharsAux_val (m+2) (m+1) (by omega)]
    show some (-((m+1 : Nat) : Int)) = some (Int.negSucc m)
    rw [Int.negSucc_eq]
    simp

lemma clampInt_num (k lo hi : Int) : clampInt (.num k) lo hi = max lo (min hi k) := by
  rw [clampInt]
  show (match parseIntJs (intToStr k) with
        | none => lo
        | some n => max lo (min hi n)) = max lo (min hi k)
  rw [parseIntJs_intToStr]

lemma nEff_num {body : JVal} {k : Int} (h : jget body "n" = .num k) :
    nEff body = max 1 (min 10 k) := by
  rw [nEff, h]
  exact clampInt_num k 1 10

lemma nEff_absent {body : JVal} (h : jget body "n" = .undefined ∨ jget body "n" = .null) :
    nEff body = 1 := by
  rcases h with h | h <;> rw [nEff, h] <;> exact clampInt_num 1 1 10

lemma nEff_str {body : JVal} {s : String} (h : jget body "n" = .str s) :
    nEff body = (match parseIntJs s with
                 | none => 1
                 | some k => max 1 (min 10 k)) := by
  rw [nEff, h]
  rfl

lemma nEff_bounds (body : JVal) : 1 ≤ nEff body ∧ nEff body ≤ 10 := by
  rw [nEff, clampInt]
  split <;> omega

lemma imgSeqLoop_ok_spec (common : SFPayload) (seeds : RandSrc) (upstream : UpstreamOracle)
    (fetch : FetchOracle) (u : Nat → String) :
    ∀ k i, (∀ j, j < k → ∃ r, upstream (i + j) = .ok r ∧ firstUrlOf r = some (u (i + j))) →
    imgSeqLoop common seeds upstream fetch false i k =
      .ok ((List.range k).map (fun j => seedPayload common (seeds (i + j)).val),
           (List.range k).map (fun j => OutItem.url (u (i + j)))) := by
  intro k
  induction k with
  | zero => intro i _; rfl
  | succ k ih =>
    intro i hup
    obtain ⟨r, hr, hu⟩ := hup 0 (by omega)
    rw [show i + 0 = i from rfl] at hr hu
    have ihr := ih (i + 1) (fun j hj => by
      have := hup (j + 1) (by omega)
      rwa [show i + (j + 1) = i + 1 + j from by omega] at this)
    rw [imgSeqLoop]
    simp only [hr, hu, Bool.false_eq_true, if_false, ihr]
    rw [List.range_succ_eq_map]
    simp only [List.map_cons, List.map_map, Function.comp]
    refine congrArg Except.ok (Prod.ext ?_ ?_)
    · show seedPayload common (seeds i).val :: _ = seedPayload common (seeds (i + 0)).val :: _
      refine congrArg₂ List.cons rfl ?_
      exact List.map_congr_left (fun j _ => by
        rw [show i + 1 + j = i + (j + 1) from by omega]
        simp only [Function.comp_apply])
    · show OutItem.url (u i) :: _ = OutItem.url (u (i + 0)) :: _
      refine congrArg₂ List.cons rfl ?_
      exact List.map_congr_left (fun j _ => by
        rw [show i + 1 + j = i + (j + 1) from by omega]
        simp only [Function.comp_apply])

lemma imgSeqLoop_ok_payloads (common : SFPayload) (seeds : RandSrc)
    (upstream : UpstreamOracle) (fetch : FetchOracle) (isB64 : Bool) :
    ∀ k i ps its, imgSeqLoop common seeds upstream fetch isB64 i k = .ok (ps, its) →
      ps = (List.range k).map (fun j => seedPayload common (seeds (i + j)).val) := by
  intro k
  induction k with
  | zero =>
    intro i ps its h
    rw [imgSeqLoop] at h
    injection h with h
    rw [show ps = ([] : List SFPayload) from congrArg Prod.fst h.symm]
    simp
  | succ k ih =>
    intro i ps its h
    rw [imgSeqLoop] at h
    split at h
    · exact absurd h (by simp)
    · split at h
      · exact absurd h (by simp)
      · split at h
        · exact absurd h (by simp)
        · split at h
          · exact absurd h (by simp)
          · rename_i ps' its' heq
            injection h with h
            have hps : ps = seedPayload common (seeds i).val :: ps' :=
              (congrArg Prod.fst h.symm)
            rw [hps, ih (i + 1) ps' its' heq, List.range_succ_eq_map]
            simp only [List.map_cons, List.map_map]
            refine congrArg₂ List.cons (by rw [show i + 0 = i from rfl]) ?_
            exact List.map_congr_left (fun j _ => by
              rw [show i + 1 + j = i + (j + 1) from by omega]
              simp only [Function.comp_apply])

lemma imgSeqLoop_ok_urls (common : SFPayload) (seeds : RandSrc)
    (upstream : UpstreamOracle) (fetch : FetchOracle) (isB64 : Bool) :
    ∀ k i ps its, imgSeqLoop common seeds upstream fetch isB64 i k = .ok (ps, its) →
      ∀ j, j < k → ∃ r u, upstream (i + j) = .ok r ∧ firstUrlOf r = some u := by
  intro k
  induction k with
  | zero => intro i ps its _ j hj; omega
  | succ k ih =>
    intro i ps its h j hj
    rw [imgSeqLoop] at h
    split at h
    · exact absurd h (by simp)
    · rename_i r hr
      split at h
      · exact absurd h (by simp)
      · rename_i u hu
        split at h
        · exact absurd h (by simp)
        · split at h
          · exact absurd h (by simp)
          · rename_i ps' its' heq
            rcases Nat.lt_or_ge j 1 with hj1 | hj1
            · have : j = 0 := by omega
              subst this
              exact ⟨r, u, by rw [show i + 0 = i from rfl]; exact hr, hu⟩
            · obtain ⟨r2, u2, h1, h2⟩ := ih (i + 1) ps' its' heq (j - 1) (by omega)
              exact ⟨r2, u2, by rwa [show i + 1 + (j - 1) = i + j from by omega] at h1, h2⟩

lemma batchSelected_none {common : SFPayload} {n : Int} (h : common.batch_size = none) :
    batchSelected common n = false := by
  rw [batchSelected, h]
  rfl

lemma imagesGenerations_seq_eq {body : JVal} {kk m p : String} {seeds : RandSrc}
    {upstream : UpstreamOracle} {fetch : FetchOracle}
    (hm : jget body "model" = .str m) (hmne : m ≠ "")
    (hp : jget body "prompt" = .str p) (hpne : p ≠ "")
    (hgate : isImageEditModel m = false ∨ (pickImageFromBody body).isSome = true)
    (hbs : jget body "sf_batch_size" = .undefined) :
    imagesGenerations body (some kk) seeds upstream fetch =
      match imgSeqLoop (mkCommonPayload body m p (pickImageFromBody body)) seeds upstream fetch
          (jStrEq (jOr (jget body "response_format") (.str "url")) "b64_json")
          0 (nEff body).toNat with
      | .error e => .error e
      | .ok (ps, items) => .ok ⟨items, ps⟩ := by
  have hT : jvTruthy (jget body "model") = true := by
    rw [hm]
    simp [jvTruthy, hmne]
  have hpb : (p == "") = false := beq_eq_false_iff_ne.mpr hpne
  have hgateb : (isImageEditModel m && (pickImageFromBody body).isNone) = false := by
    rcases hgate with h | h
    · rw [h]
      rfl
    · cases hpi : pickImageFromBody body
      · rw [hpi] at h
        simp at h
      · simp
  have hbsel : batchSelected (mkCommonPayload body m p (pickImageFromBody body))
      (nEff body) = false := batchSelected_none (mkCommon_batch_absent hbs)
  have hT2 : jvTruthy (JVal.str m) = true := by simp [jvTruthy, hmne]
  rw [imagesGenerations]
  simp only [hT, hT2, Bool.true_eq_false, if_false, hp, hpb, Bool.false_eq_true, hm, jsToString,
    hgateb, hbsel]

lemma outItems_url (fetch : FetchOracle) (urls : List String) :
    outItems fetch false urls = .ok (urls.map OutItem.url) := by
  induction urls with
  | nil => rfl
  | cons u us ih =>
    rw [outItems]
    simp only [Bool.false_eq_true, if_false, ih, List.map_cons]

lemma mkCommon_batch_val {body : JVal} {m p : String} {img : Option String}
    (h : jget body "sf_batch_size" ≠ .undefined) :
    (mkCommonPayload body m p img).batch_size = some (jget body "sf_batch_size") := by
  show (copyIfPresent body _).batch_size = _
  rw [cip_not_falsy (jvTruthy_of_get h), copyStep_of_val h]
  rfl

lemma imagesGenerations_batch_eq {body : JVal} {kk m p : String} {seeds : RandSrc}
    {upstream : UpstreamOracle} {fetch : FetchOracle}
    (hm : jget body "model" = .str m) (hmne : m ≠ "")
    (hp : jget body "prompt" = .str p) (hpne : p ≠ "")
    (hgate : isImageEditModel m = false ∨ (pickImageFromBody body).isSome = true)
    (hbsel : batchSelected (mkCommonPayload body m p (pickImageFromBody body))
      (nEff body) = true) :
    imagesGenerations body (some kk) seeds upstream fetch =
      match upstream 0 with
      | .error e => .error (.thrown e)
      | .ok r =>
        match outItems fetch
            (jStrEq (jOr (jget body "response_format") (.str "url")) "b64_json")
            (truthyUrls r.images) with
        | .error e => .error e
        | .ok items => .ok ⟨items, [mkCommonPayload body m p (pickImageFromBody body)]⟩ := by
  have hT : jvTruthy (jget body "model") = true := by
    rw [hm]
    simp [jvTruthy, hmne]
  have hpb : (p == "") = false := beq_eq_false_iff_ne.mpr hpne
  have hgateb : (isImageEditModel m && (pickImageFromBody body).isNone) = false := by
    rcases hgate with h | h
    · rw [h]
      rfl
    · cases hpi : pickImageFromBody body
      · rw [hpi] at h
        simp at h
      · simp
  have hT2 : jvTruthy (JVal.str m) = true := by simp [jvTruthy, hmne]
  rw [imagesGenerations]
  simp only [hT, hT2, Bool.true_eq_false, if_false, hp, hpb, Bool.false_eq_true, hm, jsToString,
    hgateb, hbsel, if_true]

/-- Claim C3: the effective image count is the body's `n` clamped into
`[1, 10]` (absent/null or a non-parsable value defaults to 1); with a
truthy `batch_size` and `n == 1` exactly one upstream call is issued and
the result is the upstream's (truthy) image list in upstream order; in the
sequential case exactly `n` upstream calls are issued and the result has
exactly `n` entries in call order. -/
theorem claim_C3_call_count :
    (∀ body, 1 ≤ nEff body ∧ nEff body ≤ 10) ∧
    (∀ body (k : Int), jget body "n" = .num k → nEff body = max 1 (min 10 k)) ∧
    (∀ body, jget body "n" = .undefined ∨ jget body "n" = .null → nEff body = 1) ∧
    (∀ body s, jget body "n" = .str s → parseIntJs s = none → nEff body = 1) ∧
    (∀ (body : JVal) (kk m p : String) (seeds : RandSrc) (upstream : UpstreamOracle)
       (fetch : FetchOracle) (r : SFResp),
       jget body "model" = .str m → m ≠ "" →
       jget body "prompt" = .str p → p ≠ "" →
       (isImageEditModel m = false ∨ (pickImageFromBody body).isSome = true) →
       jget body "sf_batch_size" ≠ .undefined →
       jvTruthy (jget body "sf_batch_size") = true →
       nEff body = 1 →
       jget body "response_format" = .undefined →
       upstream 0 = .ok r →
       imagesGenerations body (some kk) seeds upstream fetch =
         .ok ⟨(truthyUrls r.images).map OutItem.url,
              [mkCommonPayload body m p (pickImageFromBody body)]⟩) ∧
    (∀ (body : JVal) (kk m p : String) (seeds : RandSrc) (upstream : UpstreamOracle)
       (fetch : FetchOracle) (u : Nat → String),
       jget body "model" = .str m → m ≠ "" →
       jget body "prompt" = .str p → p ≠ "" →
       (isImageEditModel m = false ∨ (pickImageFromBody body).isSome = true) →
       jget body "sf_batch_size" = .undefined →
       jget body "response_format" = .undefined →
       (∀ j, j < (nEff body).toNat → ∃ r, upstream j = .ok r ∧ firstUrlOf r = some (u j)) →
       imagesGenerations body (some kk) seeds upstream fetch =
         .ok ⟨(List.range (nEff body).toNat).map (fun j => OutItem.url (u j)),
              (List.range (nEff body).toNat).map
                (fun j => seedPayload (mkCommonPayload body m p (pickImageFromBody body))
                  (seeds j).val)⟩) := by
  refine ⟨nEff_bounds, fun body k h => nEff_num h, fun body h => nEff_absent h,
    fun body s h hp => by rw [nEff_str h, hp], ?_, ?_⟩
  · intro body kk m p seeds upstream fetch r hm hmne hp hpne hgate hbv hbt hn1 hrf hup
    have hbsel : batchSelected (mkCommonPayload body m p (pickImageFromBody body))
        (nEff body) = true := by
      rw [batchSelected, mkCommon_batch_val hbv]
      show (jvTruthy (jget body "sf_batch_size") && (nEff body == 1)) = true
      rw [hbt, hn1]
      rfl
    rw [imagesGenerations_batch_eq hm hmne hp hpne hgate hbsel]
    simp only [hup, hrf,
      show jStrEq (jOr JVal.undefined (JVal.str "url")) "b64_json" = false from rfl, outItems_url]
  · intro body kk m p seeds upstream fetch u hm hmne hp hpne hgate hbs hrf hup
    rw [imagesGenerations_seq_eq hm hmne hp hpne hgate hbs, hrf]
    rw [show jStrEq (jOr JVal.undefined (.str "url")) "b64_json" = false from rfl]
    rw [imgSeqLoop_ok_spec _ seeds upstream fetch u ((nEff body).toNat) 0
      (fun j hj => by rw [Nat.zero_add]; exact hup j hj)]
    refine congrArg Except.ok (congrArg₂ ImagesOk.mk ?_ ?_)
    · exact List.map_congr_left (fun j _ => by rw [Nat.zero_add])
    · exact List.map_congr_left (fun j _ => by rw [Nat.zero_add])

/-- Witness for C3: a sequential run with `n = 2` issues two calls and
returns two entries, and a batch run with `sf_batch_size` and `n = 1`
issues one call returning the upstream list. -/
theorem claim_C3_witness :
    imagesGenerations
        (JVal.jobj [("model", .str "Qwen/Qwen-Image"), ("prompt", .str "a cat"), ("n", .num 2)])
        (some "k") (fun i => ⟨(i + 7) % 10000000000, by omega⟩)
        (fun _ => .ok ⟨[some "https://cdn/a.png"]⟩) (fun _ => .error "no fetch") =
      .ok ⟨(List.range 2).map (fun _ => OutItem.url "https://cdn/a.png"),
           (List.range 2).map (fun j =>
             seedPayload
               (mkCommonPayload
                 (JVal.jobj [("model", .str "Qwen/Qwen-Image"), ("prompt", .str "a cat"),
                   ("n", .num 2)]) "Qwen/Qwen-Image" "a cat" none)
               (((fun i => (⟨(i + 7) % 10000000000, by omega⟩ : Fin 10000000000)) j).val))⟩ := by
  have h := claim_C3_call_count.2.2.2.2.2
    (JVal.jobj [("model", .str "Qwen/Qwen-Image"), ("prompt", .str "a cat"), ("n", .num 2)])
    "k" "Qwen/Qwen-Image" "a cat" (fun i => ⟨(i + 7) % 10000000000, by omega⟩)
    (fun _ => .ok ⟨[some "https://cdn/a.png"]⟩) (fun _ => .error "no fetch")
    (fun _ => "https://cdn/a.png") rfl (by decide) rfl (by decide) (Or.inl (by decide))
    (by decide) rfl (fun j hj => ⟨⟨[some "https://cdn/a.png"]⟩, rfl, rfl⟩)
  rw [h]
  rfl

/-- Claim C1 counterexample: in the chat handler, with `n = 2`, a second
upstream call whose images list has no first URL is skipped silently — the
request still succeeds, returning the one collected URL (a partial
success), with both call payloads showing two calls were made. -/
theorem claim_C1_counterexample :
    chatCompletions
        (JVal.jobj [("model", .str "Qwen/Qwen-Image"), ("n", .num 2),
          ("messages", JVal.jarr [JVal.jobj [("role", .str "user"),
            ("content", .str "draw a cat")]])])
        (some "k") (fun _ => ⟨5, by omega⟩)
        (fun i => if i == 0 then .ok ⟨[some "https://cdn/a.png"]⟩ else .ok ⟨[]⟩)
        (fun _ => .error "no fetch") =
      .ok ⟨"![image](https://cdn/a.png)", ["https://cdn/a.png"],
           [{ model := "Qwen/Qwen-Image", prompt := "draw a cat", image_size := none,
              image := none, negative_prompt := none, num_inference_steps := none,
              guidance_scale := none, cfg := none, seed := some (.num 5), batch_size := none },
            { model := "Qwen/Qwen-Image", prompt := "draw a cat", image_size := none,
              image := none, negative_prompt := none, num_inference_steps := none,
              guidance_scale := none, cfg := none, seed := some (.num 5),
              batch_size := none }]⟩ := rfl

/-- Claim C1 (amended): in the images-generations handler's sequential
strategy, if any one of the `n` upstream calls returns a response whose
images list has no truthy first URL, the whole request fails with an error
and no partial-success response is produced.  (The chat-completions
handler, by contrast, skips such calls silently — see the
counterexample.) -/
theorem claim_C1_no_partial_success {body : JVal} {kk m p : String} {seeds : RandSrc}
    {upstream : UpstreamOracle} {fetch : FetchOracle} {i : Nat} {r : SFResp}
    (hm : jget body "model" = .str m) (hmne : m ≠ "")
    (hp : jget body "prompt" = .str p) (hpne : p ≠ "")
    (hgate : isImageEditModel m = false ∨ (pickImageFromBody body).isSome = true)
    (hbs : jget body "sf_batch_size" = .undefined)
    (hi : i < (nEff body).toNat)
    (hr : upstream i = .ok r) (hnou : firstUrlOf r = none) :
    ∃ e, imagesGenerations body (some kk) seeds upstream fetch = .error e := by
  rw [imagesGenerations_seq_eq hm hmne hp hpne hgate hbs]
  cases hloop : imgSeqLoop (mkCommonPayload body m p (pickImageFromBody body)) seeds upstream
      fetch (jStrEq (jOr (jget body "response_format") (.str "url")) "b64_json")
      0 (nEff body).toNat with
  | error e => exact ⟨e, rfl⟩
  | ok pr =>
    obtain ⟨r2, u2, h1, h2⟩ := imgSeqLoop_ok_urls _ seeds upstream fetch _ _ 0 pr.1 pr.2
      (by rw [hloop]) i hi
    rw [Nat.zero_add] at h1
    rw [hr] at h1
    injection h1 with h1
    rw [← h1] at h2
    rw [hnou] at h2
    exact absurd h2 (by simp)

/-- Witness for C1: a concrete sequential request whose second call
returns an empty images list makes the images handler fail. -/
theorem claim_C1_witness :
    ∃ e, imagesGenerations
        (JVal.jobj [("model", .str "Qwen/Qwen-Image"), ("prompt", .str "a cat"), ("n", .num 2)])
        (some "k") (fun _ => ⟨5, by omega⟩)
        (fun i => if i == 0 then .ok ⟨[some "https://cdn/a.png"]⟩ else .ok ⟨[]⟩)
        (fun _ => .error "no fetch") = .error e :=
  claim_C1_no_partial_success (i := 1) (r := ⟨[]⟩) rfl (by decide) rfl (by decide)
    (Or.inl (by decide)) rfl (by decide) rfl rfl

lemma seedPayload_isSome (common : SFPayload) (s : Nat) :
    (seedPayload common s).seed.isSome = true := by
  rw [seedPayload]
  split
  · rename_i v heq
    rw [heq]
    rfl
  · rfl

lemma seedPayload_of_some {common : SFPayload} {sv : JVal} (h : common.seed = some sv)
    (s : Nat) : seedPayload common s = common := by
  rw [seedPayload, h]

lemma seedPayload_of_none {common : SFPayload} (h : common.seed = none) (s : Nat) :
    seedPayload common s = { common with seed := some (.num (Int.ofNat s)) } := by
  rw [seedPayload, h]

/-- Claim C8 counterexample: with no client-supplied seed and `n = 2`, the
two upstream payloads carry whatever the random source draws; when the two
draws coincide (the code never re-draws or deduplicates), the two payloads
carry the same seed value, so the seeds are not guaranteed different. -/
theorem claim_C8_counterexample :
    (imagesGenerations
        (JVal.jobj [("model", .str "Qwen/Qwen-Image"), ("prompt", .str "a cat"), ("n", .num 2)])
        (some "k") (fun _ => ⟨0, by omega⟩)
        (fun _ => .ok ⟨[some "https://cdn/a.png"]⟩) (fun _ => .error "no fetch")).map
      (fun r => r.callPayloads.map SFPayload.seed) =
      .ok [some (.num 0), some (.num 0)] := rfl

/-- Claim C8 (amended): in the images handler's sequential strategy, every
upstream payload contains a seed; a client-supplied seed is sent unchanged
on every call; otherwise call `j` receives the `j`-th draw of the injected
random source (each draw a natural number below `10^10`, as
`Math.floor(Math.random() * 1e10)` produces), so for `n = 2` with no
client-supplied seed the two payloads carry the draws for calls 0 and 1 —
which differ exactly when those draws differ; the code does not guarantee
distinct draws. -/
theorem claim_C8_seed_injection {body : JVal} {kk m p : String} {seeds : RandSrc}
    {upstream : UpstreamOracle} {fetch : FetchOracle} {res : ImagesOk}
    (hm : jget body "model" = .str m) (hmne : m ≠ "")
    (hp : jget body "prompt" = .str p) (hpne : p ≠ "")
    (hgate : isImageEditModel m = false ∨ (pickImageFromBody body).isSome = true)
    (hbs : jget body "sf_batch_size" = .undefined)
    (hrun : imagesGenerations body (some kk) seeds upstream fetch = .ok res) :
    (∀ q ∈ res.callPayloads, q.seed.isSome = true) ∧
    (∀ sv, (mkCommonPayload body m p (pickImageFromBody body)).seed = some sv →
       ∀ q ∈ res.callPayloads, q.seed = some sv) ∧
    (jget body "seed" = .undefined → jget body "sf_seed" = .undefined →
       res.callPayloads = (List.range (nEff body).toNat).map
         (fun j => { mkCommonPayload body m p (pickImageFromBody body) with
                     seed := some (.num (Int.ofNat (seeds j).val)) }) ∧
       (∀ j, (seeds j).val < 10000000000) ∧
       (nEff body = 2 → (seeds 0).val ≠ (seeds 1).val →
         ∃ q0 q1, res.callPayloads = [q0, q1] ∧ q0.seed ≠ q1.seed)) := by
  rw [imagesGenerations_seq_eq hm hmne hp hpne hgate hbs] at hrun
  cases hloop : imgSeqLoop (mkCommonPayload body m p (pickImageFromBody body)) seeds upstream
      fetch (jStrEq (jOr (jget body "response_format") (.str "url")) "b64_json")
      0 (nEff body).toNat with
  | error e =>
    rw [hloop] at hrun
    exact absurd hrun (by simp)
  | ok pr =>
    rw [hloop] at hrun
    have hps : res.callPayloads = pr.1 := by
      cases pr with
      | mk ps its =>
        injection hrun with hrun
        rw [← hrun]
    have hform := imgSeqLoop_ok_payloads _ seeds upstream fetch _ _ 0 pr.1 pr.2
      (by rw [hloop])
    refine ⟨?_, ?_, ?_⟩
    · intro q hq
      rw [hps, hform] at hq
      obtain ⟨j, _, hj⟩ := List.mem_map.mp hq
      rw [← hj]
      exact seedPayload_isSome _ _
    · intro sv hsv q hq
      rw [hps, hform] at hq
      obtain ⟨j, _, hj⟩ := List.mem_map.mp hq
      rw [← hj, seedPayload_of_some hsv]
      exact hsv
    · intro hsc hsa
      have hnone : (mkCommonPayload body m p (pickImageFromBody body)).seed = none :=
        mkCommon_seed_absent hsc hsa
      have hform2 : res.callPayloads = (List.range (nEff body).toNat).map
          (fun j => { mkCommonPayload body m p (pickImageFromBody body) with
                      seed := some (.num (Int.ofNat (seeds j).val)) }) := by
        rw [hps, hform]
        exact List.map_congr_left (fun j _ => by
          rw [Nat.zero_add, seedPayload_of_none hnone])
      refine ⟨hform2, fun j => (seeds j).isLt, ?_⟩
      intro hn2 hdiff
      have hn2' : (nEff body).toNat = 2 := by rw [hn2]; rfl
      rw [hn2'] at hform2
      refine ⟨_, _, by rw [hform2]; rfl, ?_⟩
      intro heq
      simp only [SFPayload.mk.injEq] at heq
      exact hdiff (by simpa using heq)

/-- Witness for C8: with distinct draws 7 and 8 for `n = 2`, the two
payloads carry seeds 7 and 8, which differ. -/
theorem claim_C8_witness :
    ∃ res, imagesGenerations
        (JVal.jobj [("model", .str "Qwen/Qwen-Image"), ("prompt", .str "a cat"), ("n", .num 2)])
        (some "k") (fun i => ⟨(i + 7) % 10000000000, by omega⟩)
        (fun _ => .ok ⟨[some "https://cdn/a.png"]⟩) (fun _ => .error "no fetch") = .ok res ∧
      ∃ q0 q1, res.callPayloads = [q0, q1] ∧ q0.seed ≠ q1.seed := by
  refine ⟨⟨[.url "https://cdn/a.png", .url "https://cdn/a.png"],
    [{ model := "Qwen/Qwen-Image", prompt := "a cat", image_size := none, image := none,
       negative_prompt := none, num_inference_steps := none, guidance_scale := none,
       cfg := none, seed := some (.num 7), batch_size := none },
     { model := "Qwen/Qwen-Image", prompt := "a cat", image_size := none, image := none,
       negative_prompt := none, num_inference_steps := none, guidance_scale := none,
       cfg := none, seed := some (.num 8), batch_size := none }]⟩, rfl, ?_⟩
  exact ((@claim_C8_seed_injection
    (JVal.jobj [("model", .str "Qwen/Qwen-Image"), ("prompt", .str "a cat"), ("n", .num 2)])
    "k" "Qwen/Qwen-Image" "a cat" (fun i => ⟨(i + 7) % 10000000000, by omega⟩)
    (fun _ => .ok ⟨[some "https://cdn/a.png"]⟩) (fun _ => .error "no fetch")
    ⟨[.url "https://cdn/a.png", .url "https://cdn/a.png"],
     [{ model := "Qwen/Qwen-Image", prompt := "a cat", image_size := none, image := none,
        negative_prompt := none, num_inference_steps := none, guidance_scale := none,
        cfg := none, seed := some (.num 7), batch_size := none },
      { model := "Qwen/Qwen-Image", prompt := "a cat", image_size := none, image := none,
        negative_prompt := none, num_inference_steps := none, guidance_scale := none,
        cfg := none, seed := some (.num 8), batch_size := none }]⟩
    rfl (by decide) rfl (by decide) (Or.inl (by decide)) rfl
    rfl).2.2 rfl rfl).2.2 (by decide) (by decide)

/-! ## Chat handler reduction -/

lemma chatCompletions_eq {body : JVal} {kk m : String} {seeds : RandSrc}
    {upstream : UpstreamOracle} {fetch : FetchOracle}
    (hmarr : isJsArray (jget body "messages") = true)
    (hne : (jElems (jget body "messages")).isEmpty = false)
    (hprompt : (chatPrompt (findLastUser (jElems (jget body "messages"))) == "") = false)
    (hm : jget body "model" = .str m) (hmne : m ≠ "")
    (hgate : isImageEditModel m = false ∨
      (chatPickImage (jElems (jget body "messages")) body m).isSome = true) :
    chatCompletions body (some kk) seeds upstream fetch =
      (match (if batchSelected
                (mkCommonPayload body m (chatPrompt (findLastUser (jElems (jget body "messages"))))
                  (chatPickImage (jElems (jget body "messages")) body m)) (nEff body) = true then
               match upstream 0 with
               | Except.error e => Except.error (HFail.thrown e)
               | Except.ok r =>
                 Except.ok
                   ([mkCommonPayload body m
                       (chatPrompt (findLastUser (jElems (jget body "messages"))))
                       (chatPickImage (jElems (jget body "messages")) body m)],
                    truthyUrls r.images)
             else chatSeqLoop
               (mkCommonPayload body m (chatPrompt (findLastUser (jElems (jget body "messages"))))
                 (chatPickImage (jElems (jget body "messages")) body m))
               seeds upstream 0 (nEff body).toNat) with
       | Except.error e => Except.error e
       | Except.ok (ps, urls) =>
         match chatMd fetch
             (jStrEq (jOr (jget body "response_format") (.str "url")) "b64_json") urls with
         | Except.error e => Except.error e
         | Except.ok md => Except.ok ⟨md, urls, ps⟩) := by
  have hT : jvTruthy (jget body "model") = true := by
    rw [hm]
    simp [jvTruthy, hmne]
  have hgateb : (isImageEditModel m &&
      (chatPickImage (jElems (jget body "messages")) body m).isNone) = false := by
    rcases hgate with h | h
    · rw [h]
      rfl
    · cases hpi : chatPickImage (jElems (jget body "messages")) body m
      · rw [hpi] at h
        simp at h
      · simp
  have hT2 : jvTruthy (JVal.str m) = true := by simp [jvTruthy, hmne]
  rw [chatCompletions]
  simp only [hmarr, if_true, hne, Bool.false_eq_true, if_false, hprompt, hT, hT2,
    Bool.true_eq_false, hm, jsToString, hgateb]

/-! ## Claim C9 -/

/-- Claim C9: for the chat endpoint with the default `url` response
format, the returned choice's message content is exactly the strings
`![image](u)` for each generated URL `u`, in generation order, joined by a
blank line; for a single URL the content is exactly one block with nothing
before or after. -/
theorem claim_C9_markdown_content {body : JVal} {kk m : String} {seeds : RandSrc}
    {upstream : UpstreamOracle} {fetch : FetchOracle} {res : ChatOk}
    (hrf : jget body "response_format" = .undefined ∨ jget body "response_format" = .str "url")
    (hmarr : isJsArray (jget body "messages") = true)
    (hne : (jElems (jget body "messages")).isEmpty = false)
    (hprompt : (chatPrompt (findLastUser (jElems (jget body "messages"))) == "") = false)
    (hm : jget body "model" = .str m) (hmne : m ≠ "")
    (hgate : isImageEditModel m = false ∨
      (chatPickImage (jElems (jget body "messages")) body m).isSome = true)
    (hrun : chatCompletions body (some kk) seeds upstream fetch = .ok res) :
    res.content =
      String.intercalate "\n\n" (res.urls.map (fun u => "![image](" ++ u ++ ")")) ∧
    (∀ u, res.urls = [u] → res.content = "![image](" ++ u ++ ")") := by
  have hb : jStrEq (jOr (jget body "response_format") (.str "url")) "b64_json" = false := by
    rcases hrf with h | h <;> rw [h] <;> rfl
  rw [chatCompletions_eq hmarr hne hprompt hm hmne hgate, hb] at hrun
  have hmain : res.content =
      String.intercalate "\n\n" (res.urls.map (fun u => "![image](" ++ u ++ ")")) := by
    split at hrun
    · exact absurd hrun (by simp)
    · rename_i pr heq
      rw [show ∀ urls, chatMd fetch false urls =
          .ok (String.intercalate "\n\n"
            (urls.map (fun u => "![image](" ++ u ++ ")"))) from fun _ => rfl] at hrun
      injection hrun with hrun
      rw [← hrun]
  refine ⟨hmain, ?_⟩
  intro u hu
  rw [hmain, hu]
  rfl

/-- Witness for C9: a concrete one-image chat run yields exactly one
Markdown block. -/
theorem claim_C9_witness :
    ∃ res, chatCompletions
        (JVal.jobj [("model", .str "Qwen/Qwen-Image"),
          ("messages", JVal.jarr [JVal.jobj [("role", .str "user"),
            ("content", .str "draw a cat")]])])
        (some "k") (fun _ => ⟨5, by omega⟩)
        (fun _ => .ok ⟨[some "https://cdn/a.png"]⟩) (fun _ => .error "no fetch") = .ok res ∧
      res.content = "![image](https://cdn/a.png)" := by
  refine ⟨⟨"![image](https://cdn/a.png)", ["https://cdn/a.png"],
    [{ model := "Qwen/Qwen-Image", prompt := "draw a cat", image_size := none, image := none,
       negative_prompt := none, num_inference_steps := none, guidance_scale := none,
       cfg := none, seed := some (.num 5), batch_size := none }]⟩, rfl, ?_⟩
  exact (@claim_C9_markdown_content
    (JVal.jobj [("model", .str "Qwen/Qwen-Image"),
      ("messages", JVal.jarr [JVal.jobj [("role", .str "user"),
        ("content", .str "draw a cat")]])])
    "k" "Qwen/Qwen-Image" (fun _ => ⟨5, by omega⟩)
    (fun _ => .ok ⟨[some "https://cdn/a.png"]⟩) (fun _ => .error "no fetch")
    ⟨"![image](https://cdn/a.png)", ["https://cdn/a.png"],
     [{ model := "Qwen/Qwen-Image", prompt := "draw a cat", image_size := none, image := none,
        negative_prompt := none, num_inference_steps := none, guidance_scale := none,
        cfg := none, seed := some (.num 5), batch_size := none }]⟩
    (Or.inl rfl) rfl rfl rfl rfl (by decide) (Or.inl (by decide)) rfl).2
    "https://cdn/a.png" rfl

/-! ## Claim C7 -/

/-- Claim C7: for a model matching the edit-model pattern, when no input
image can be found anywhere in the request, both handlers return HTTP 400
with error type `invalid_request_error`; and in the chat handler, when the
current user turn and the body carry no image but a prior assistant
message contains `![x](https://example.com/b.png)`, the request succeeds
with that URL placed in the upstream payload's `image` field. -/
theorem claim_C7_edit_gating :
    (∀ (body : JVal) (kk m p : String) (seeds : RandSrc) (upstream : UpstreamOracle)
       (fetch : FetchOracle),
       jget body "model" = .str m → m ≠ "" → isImageEditModel m = true →
       jget body "prompt" = .str p → p ≠ "" → pickImageFromBody body = none →
       imagesGenerations body (some kk) seeds upstream fetch =
         .error (.httpErr 400 "invalid_request_error"
           "image is required for image-edit models (accepts data:image/... or URL, or image_url)")) ∧
    (∀ (body : JVal) (kk m : String) (seeds : RandSrc) (upstream : UpstreamOracle)
       (fetch : FetchOracle),
       isJsArray (jget body "messages") = true →
       (jElems (jget body "messages")).isEmpty = false →
       (chatPrompt (findLastUser (jElems (jget body "messages"))) == "") = false →
       jget body "model" = .str m → m ≠ "" → isImageEditModel m = true →
       chatPickImage (jElems (jget body "messages")) body m = none →
       chatCompletions body (some kk) seeds upstream fetch =
         .error (.httpErr 400 "invalid_request_error"
           "image is required for image-edit models in chat (we also try last assistant image if user has none).")) ∧
    (chatCompletions
        (JVal.jobj [("model", .str "Qwen/Qwen-Image-Edit"),
          ("messages", JVal.jarr
            [JVal.jobj [("role", .str "user"), ("content", .str "draw a cat")],
             JVal.jobj [("role", .str "assistant"),
               ("content", .str "here ![x](https://example.com/b.png)")],
             JVal.jobj [("role", .str "user"), ("content", .str "make it blue")]])])
        (some "k") (fun _ => ⟨5, by omega⟩)
        (fun _ => .ok ⟨[some "https://cdn/out.png"]⟩) (fun _ => .error "no fetch") =
      .ok ⟨"![image](https://cdn/out.png)", ["https://cdn/out.png"],
           [{ model := "Qwen/Qwen-Image-Edit", prompt := "make it blue", image_size := none,
              image := some "https://example.com/b.png", negative_prompt := none,
              num_inference_steps := none, guidance_scale := none, cfg := none,
              seed := some (.num 5), batch_size := none }]⟩) := by
  refine ⟨?_, ?_, rfl⟩
  · intro body kk m p seeds upstream fetch hm hmne hedit hp hpne himg
    have hT : jvTruthy (jget body "model") = true := by
      rw [hm]
      simp [jvTruthy, hmne]
    have hT2 : jvTruthy (JVal.str m) = true := by simp [jvTruthy, hmne]
    have hpb : (p == "") = false := beq_eq_false_iff_ne.mpr hpne
    rw [imagesGenerations]
    simp only [hT, hT2, Bool.true_eq_false, if_false, hp, hpb, Bool.false_eq_true, hm,
      jsToString, hedit, himg, Option.isNone_none, Bool.and_self, if_true]
  · intro body kk m seeds upstream fetch hmarr hne hprompt hm hmne hedit himg
    have hT : jvTruthy (jget body "model") = true := by
      rw [hm]
      simp [jvTruthy, hmne]
    have hT2 : jvTruthy (JVal.str m) = true := by simp [jvTruthy, hmne]
    rw [chatCompletions]
    simp only [hmarr, if_true, hne, Bool.false_eq_true, if_false, hprompt, hT, hT2,
      Bool.true_eq_false, hm, jsToString, hedit, himg, Option.isNone_none,
      Bool.and_self]

/-- Witness for C7 at an edit-model request with no image anywhere. -/
theorem claim_C7_witness :
    imagesGenerations
        (JVal.jobj [("model", .str "Qwen/Qwen-Image-Edit"), ("prompt", .str "a cat")])
        (some "k") (fun _ => ⟨5, by omega⟩)
        (fun _ => .ok ⟨[some "https://cdn/a.png"]⟩) (fun _ => .error "no fetch") =
      .error (.httpErr 400 "invalid_request_error"
        "image is required for image-edit models (accepts data:image/... or URL, or image_url)") :=
  claim_C7_edit_gating.1
    (JVal.jobj [("model", .str "Qwen/Qwen-Image-Edit"), ("prompt", .str "a cat")])
    "k" "Qwen/Qwen-Image-Edit" "a cat" (fun _ => ⟨5, by omega⟩)
    (fun _ => .ok ⟨[some "https://cdn/a.png"]⟩) (fun _ => .error "no fetch")
    rfl (by decide) (by decide) rfl (by decide) (by decide)

/-! ## Claim C10 -/

/-- Claim C10 counterexample: an empty body on the chat endpoint is
decoded as `{}` and rejected with HTTP 400 `invalid_request_error`, but
the message complains that `messages` is required, not that `model` is
required. -/
theorem claim_C10_counterexample :
    handlePost .chat "" (fun _ => none) (some "k") (fun _ => ⟨0, by omega⟩)
        (fun _ => .ok ⟨[]⟩) (fun _ => .error "no fetch") =
      .resp 400 "invalid_request_error" "messages is required (array)" ∧
    ("messages is required (array)" : String) ≠ "model is required" := ⟨rfl, by decide⟩

/-- Claim C10 (amended): a POST to either endpoint with an empty
(zero-length) body is decoded as the empty JSON object, so the response is
HTTP 400 `invalid_request_error` — complaining that `model` is required on
the images endpoint (given a configured upstream key) and that `messages`
is required on the chat endpoint; only a non-empty body that fails JSON
parsing raises the `Invalid JSON body` error, which surfaces as HTTP 500
with type `internal_error`. -/
theorem claim_C10_empty_body :
    (∀ (parse : String → Option JVal) (kk : String) (seeds : RandSrc)
       (upstream : UpstreamOracle) (fetch : FetchOracle),
       handlePost .images "" parse (some kk) seeds upstream fetch =
         .resp 400 "invalid_request_error" "model is required") ∧
    (∀ (parse : String → Option JVal) (key : Option String) (seeds : RandSrc)
       (upstream : UpstreamOracle) (fetch : FetchOracle),
       handlePost .chat "" parse key seeds upstream fetch =
         .resp 400 "invalid_request_error" "messages is required (array)") ∧
    (∀ (ep : Endpoint) (t : String) (parse : String → Option JVal) (key : Option String)
       (seeds : RandSrc) (upstream : UpstreamOracle) (fetch : FetchOracle),
       t ≠ "" → parse t = none →
       handlePost ep t parse key seeds upstream fetch =
         .resp 500 "internal_error" "Invalid JSON body") := by
  refine ⟨fun parse kk seeds upstream fetch => rfl, ?_, ?_⟩
  · intro parse key seeds upstream fetch
    cases key <;> rfl
  · intro ep t parse key seeds upstream fetch ht hp
    have hb : (t == "") = false := beq_eq_false_iff_ne.mpr ht
    rw [handlePost, safeJson]
    simp only [hb, Bool.false_eq_true, if_false, hp]

/-- Witness for C10: a non-empty unparsable body yields the 500
`internal_error`. -/
theorem claim_C10_witness :
    handlePost .images "not json" (fun _ => none) (some "k") (fun _ => ⟨0, by omega⟩)
        (fun _ => .ok ⟨[]⟩) (fun _ => .error "no fetch") =
      .resp 500 "internal_error" "Invalid JSON body" :=
  claim_C10_empty_body.2.2 .images "not json" (fun _ => none) (some "k") (fun _ => ⟨0, by omega⟩)
    (fun _ => .ok ⟨[]⟩) (fun _ => .error "no fetch") (by decide) rfl
